import Mathlib

/-!
Verification of the Leave & Schedule Accounting slice of the staff
scheduling application.  The repository contains two generations of the
code base: the `app` package (`src/app/models.py`, `src/app/admin/__init__.py`,
`src/app/main/__init__.py`), embedded below in namespace `V2`, and the older
monolith (`src/app.py` with `src/blueprints/*.py`), embedded in namespace
`V1`.  Dates are modelled by a calendar date record with proleptic Gregorian
arithmetic (rata die day numbers), matching the semantics of Python
`datetime.date`: ordering, day successor, `weekday()` with Monday = 0, and
`date.year`/`month`/`day` field access.
-/

/-- Calendar date, mirroring Python `datetime.date` fields. -/
structure PDate where
  year : Nat
  month : Nat
  day : Nat
deriving DecidableEq, Repr

/-- Gregorian leap year test, as used by Python `calendar`/`datetime`. -/
def isLeap (y : Nat) : Bool :=
  y % 4 == 0 && (y % 100 != 0 || y % 400 == 0)

/-- Number of days in a month (`calendar.monthrange(year, month)[1]`).
Months outside 1..12 are given length 0; the source never passes them. -/
def monthLength (y m : Nat) : Nat :=
  match m with
  | 1 => 31
  | 2 => if isLeap y then 29 else 28
  | 3 => 31
  | 4 => 30
  | 5 => 31
  | 6 => 30
  | 7 => 31
  | 8 => 31
  | 9 => 30
  | 10 => 31
  | 11 => 30
  | 12 => 31
  | _ => 0

/-- Days of the year strictly before month `m`, in year `y`. -/
def daysBeforeMonth (y m : Nat) : Nat :=
  (match m with
   | 1 => 0
   | 2 => 31
   | 3 => 59
   | 4 => 90
   | 5 => 120
   | 6 => 151
   | 7 => 181
   | 8 => 212
   | 9 => 243
   | 10 => 273
   | 11 => 304
   | 12 => 334
   | _ => 365) + (if 3 ≤ m ∧ isLeap y then 1 else 0)

/-- Number of leap years in `[1, n]`. -/
def leapsBefore (n : Nat) : Nat :=
  n / 4 - n / 100 + n / 400

/-- Rata die day number of a date: `rd ⟨1,1,1⟩ = 1`, which is a Monday in
the proleptic Gregorian calendar. -/
def rd (d : PDate) : Nat :=
  365 * (d.year - 1) + leapsBefore (d.year - 1) + daysBeforeMonth d.year d.month + d.day

/-- Python `date.weekday()`: Monday = 0 .. Sunday = 6. -/
def weekday (d : PDate) : Nat :=
  (rd d - 1) % 7

/-- Python date ordering (`d1 <= d2`), chronological. -/
def dateLe (a b : PDate) : Prop := rd a ≤ rd b

instance (a b : PDate) : Decidable (dateLe a b) := Nat.decLe _ _

/-- Python date ordering (`d1 < d2`), chronological. -/
def dateLt (a b : PDate) : Prop := rd a < rd b

instance (a b : PDate) : Decidable (dateLt a b) := Nat.decLt _ _

/-- Python `d + timedelta(days=1)`. -/
def nextDay (d : PDate) : PDate :=
  if d.day < monthLength d.year d.month then ⟨d.year, d.month, d.day + 1⟩
  else if d.month < 12 then ⟨d.year, d.month + 1, 1⟩
  else ⟨d.year + 1, 1, 1⟩

/-- A date that Python `datetime.date` can actually represent. -/
def PDate.Valid (d : PDate) : Prop :=
  1 ≤ d.year ∧ 1 ≤ d.month ∧ d.month ≤ 12 ∧ 1 ≤ d.day ∧ d.day ≤ monthLength d.year d.month

instance (d : PDate) : Decidable d.Valid := by
  unfold PDate.Valid
  infer_instance

/-- Replace the first element satisfying `p` (the ORM pattern of mutating the
object returned by `.first()` / `.get()` in place). -/
def updateFirst {α : Type} (p : α → Bool) (f : α → α) : List α → List α
  | [] => []
  | x :: xs => if p x then f x :: xs else x :: updateFirst p f xs

/-- Error taxonomy of the specification (section 7). -/
inductive AppError where
  | notFound
  | permissionError
  | invalidStateError
  | validationError
deriving DecidableEq, Repr

/-- Zero padded two digit rendering, as in strftime. -/
def pad2 (n : Nat) : String :=
  if n < 10 then "0" ++ toString n else toString n

/-- Python strftime with format dd/mm/YYYY. -/
def fmtDMY (d : PDate) : String :=
  pad2 d.day ++ "/" ++ pad2 d.month ++ "/" ++ toString d.year

/-- Python strftime with format HH:MM on a time stored as minutes. -/
def fmtHM (t : Nat) : String :=
  pad2 (t / 60) ++ ":" ++ pad2 (t % 60)

/-- Weekday counting while loop shared verbatim by LeaveRequest.days_count
(src/app/models.py lines 240-249) and the days_requested computation of
request_leave (src/blueprints/user.py lines 243-249): walk current from the
start date while current is at most the end date, counting days whose
weekday is below 5.  The loop is embedded with an explicit iteration bound;
for representable dates the bound is exactly the number of iterations the
Python loop performs. -/
def weekdayCountLoop : Nat → PDate → PDate → Nat
  | 0, _, _ => 0
  | fuel + 1, current, endD =>
    if dateLe current endD then
      (if weekday current < 5 then 1 else 0) + weekdayCountLoop fuel (nextDay current) endD
    else 0

/-- List of consecutive dates visited by a while loop running from `d` for
`n` iterations (one day per step). -/
def listDates : PDate → Nat → List PDate
  | _, 0 => []
  | d, n + 1 => d :: listDates (nextDay d) n

namespace V2

/-- LeaveType rows from src/app/models.py (fields used by the slice). -/
structure LeaveType where
  id : Nat
  name : String
  is_active : Bool
deriving DecidableEq, Repr

/-- LeaveAllocation rows from src/app/models.py lines 193-211.  Day and hour
counters are db.Float columns carrying small exact quantities; they are
modelled as rationals. -/
structure LeaveAllocation where
  id : Nat
  user_id : Nat
  leave_type_id : Nat
  year : Nat
  allocated_days : ℚ
  allocated_hours : ℚ
  used_days : ℚ
  used_hours : ℚ
deriving DecidableEq, Repr

/-- LeaveAllocation.remaining_days, src/app/models.py lines 213-215. -/
def LeaveAllocation.remaining_days (a : LeaveAllocation) : ℚ :=
  a.allocated_days - a.used_days

/-- LeaveAllocation.remaining_hours, src/app/models.py lines 217-219. -/
def LeaveAllocation.remaining_hours (a : LeaveAllocation) : ℚ :=
  a.allocated_hours - a.used_hours

/-- LeaveRequest rows from src/app/models.py lines 222-238. -/
structure LeaveRequest where
  id : Nat
  user_id : Nat
  leave_type_id : Nat
  start_date : PDate
  end_date : PDate
  reason : String
  status : String
  reviewed_by : Option Nat
  reviewed_at : Option Nat
  review_notes : Option String
deriving DecidableEq, Repr

/-- LeaveRequest.days_count, src/app/models.py lines 240-249: number of
working days (Mon to Fri) in the leave period. -/
def LeaveRequest.days_count (r : LeaveRequest) : Nat :=
  weekdayCountLoop (rd r.end_date + 1 - rd r.start_date) r.start_date r.end_date

/-- Schedule rows from src/app/models.py lines 148-165.  Times are minutes
since midnight; created_at is an abstract timestamp. -/
structure Schedule where
  id : Nat
  user_id : Nat
  date : PDate
  start_time : Nat
  end_time : Nat
  notes : String
  created_by : Nat
  created_at : Nat
deriving DecidableEq, Repr

/-- Notification rows from src/app/models.py lines 318-337. -/
structure Notification where
  user_id : Nat
  title : String
  message : String
  type : String
  is_read : Bool
  is_popup : Bool
  related_id : Option Nat
  related_type : Option String
deriving DecidableEq, Repr

/-- Unavailability rows from src/app/models.py lines 252-263. -/
structure Unavailability where
  id : Nat
  user_id : Nat
  date : PDate
  reason : String
deriving DecidableEq, Repr

/-- RestrictedDay rows from src/app/models.py lines 168-177. -/
structure RestrictedDay where
  id : Nat
  date : PDate
  reason : String
deriving DecidableEq, Repr

/-- Relational state touched by the admin and main blueprints of the app
package.  nextId models primary key assignment on insert. -/
structure Db where
  leave_types : List LeaveType
  requests : List LeaveRequest
  allocations : List LeaveAllocation
  schedules : List Schedule
  notifications : List Notification
  nextId : Nat
deriving DecidableEq, Repr

/-- Filter of LeaveAllocation.query.filter_by(user_id=..., leave_type_id=...,
year=...). -/
def allocKey (u lt y : Nat) (a : LeaveAllocation) : Bool :=
  a.user_id == u && a.leave_type_id == lt && a.year == y

/-- Name of the leave type of a request, via the leave_type relationship. -/
def leaveTypeName (db : Db) (lt : Nat) : String :=
  ((db.leave_types.find? (fun t => t.id == lt)).map (fun t => t.name)).getD ""

/-- approve_leave, src/app/admin/__init__.py lines 498-536.  get_or_404 is
the only failure; the handler never tests the current status.  It sets the
review fields, adds days_count to used_days when (and only when) a ledger
row for (user, leave type, year of start_date) already exists, and emits a
notification. -/
def approve_leave (db : Db) (lrid current_user now : Nat) (notes : String) :
    Except AppError Db :=
  match db.requests.find? (fun q => q.id == lrid) with
  | none => .error .notFound
  | some leave_request =>
    let setReview := fun (q : LeaveRequest) =>
      { q with
        status := "approved"
        reviewed_by := some current_user
        reviewed_at := some now
        review_notes := some notes }
    let requests := updateFirst (fun q => q.id == lrid) setReview db.requests
    let key := allocKey leave_request.user_id leave_request.leave_type_id
      leave_request.start_date.year
    let allocations :=
      match db.allocations.find? key with
      | some _ => updateFirst key
          (fun a => { a with used_days := a.used_days + (leave_request.days_count : ℚ) })
          db.allocations
      | none => db.allocations
    let notif : Notification :=
      { user_id := leave_request.user_id
        title := "Leave Request Approved"
        message := "Your " ++ leaveTypeName db leave_request.leave_type_id
          ++ " request for " ++ fmtDMY leave_request.start_date ++ " to "
          ++ fmtDMY leave_request.end_date ++ " has been approved."
        type := "leave"
        is_read := false
        is_popup := true
        related_id := some leave_request.id
        related_type := some "leave_request" }
    .ok { db with requests := requests, allocations := allocations,
                  notifications := db.notifications ++ [notif] }

/-- update_allocation, src/app/admin/__init__.py lines 596-624: upsert of
the allocated_days column keyed by (user, leave type, year). -/
def update_allocation (db : Db) (user_id leave_type_id year : Nat)
    (allocated_days : ℚ) : Db :=
  match db.allocations.find? (allocKey user_id leave_type_id year) with
  | some _ =>
    { db with
      allocations :=
        updateFirst (allocKey user_id leave_type_id year)
          (fun a => { a with allocated_days := allocated_days }) db.allocations }
  | none =>
    { db with
      allocations := db.allocations ++
        [{ id := db.nextId, user_id := user_id, leave_type_id := leave_type_id,
           year := year, allocated_days := allocated_days, allocated_hours := 0,
           used_days := 0, used_hours := 0 }]
      nextId := db.nextId + 1 }

/-- Filter of Schedule.query.filter_by(user_id=..., date=...). -/
def schedKey (u : Nat) (d : PDate) (s : Schedule) : Bool :=
  s.user_id == u && s.date == d

/-- assign_schedule, src/app/admin/__init__.py lines 333-390: upsert of a
shift keyed by (user, date).  If a row exists its start/end/notes are
overwritten in place; otherwise a new row is inserted and a notification is
emitted.  The notification is built before the insert is flushed, so its
related_id (schedule.id, still None in Python) is modelled as none.  The
returned pair carries the flash message of the taken branch. -/
def assign_schedule (db : Db) (user_id : Nat) (schedule_date : PDate)
    (start_time end_time : Nat) (notes : String) (current_user now : Nat) :
    Db × (String × String) :=
  match db.schedules.find? (schedKey user_id schedule_date) with
  | some _ =>
    ({ db with
       schedules :=
         updateFirst (schedKey user_id schedule_date)
           (fun s => { s with start_time := start_time, end_time := end_time, notes := notes })
           db.schedules },
     ("Schedule updated", "success"))
  | none =>
    let schedule : Schedule :=
      { id := db.nextId
        user_id := user_id
        date := schedule_date
        start_time := start_time
        end_time := end_time
        notes := notes
        created_by := current_user
        created_at := now }
    let notif : Notification :=
      { user_id := user_id
        title := "New Shift Assigned"
        message := "You have been assigned a shift on " ++ fmtDMY schedule_date
          ++ " from " ++ fmtHM start_time ++ " to " ++ fmtHM end_time
        type := "shift"
        is_read := false
        is_popup := true
        related_id := none
        related_type := some "schedule" }
    ({ db with
       schedules := db.schedules ++ [schedule]
       notifications := db.notifications ++ [notif]
       nextId := db.nextId + 1 },
     ("Schedule assigned and user notified", "success"))

/-- Inner user loop of bulk_assign_schedule (src/app/admin/__init__.py lines
418-444): for each user, insert a shift on the current day unless a row for
that (user, date) already exists.  The existence query runs against the
session, which autoflushes pending inserts, so it is checked against the
evolving state. -/
def bulkUsersLoop (st et creator now : Nat) (current : PDate) :
    List Nat → Db → Nat → Db × Nat
  | [], db, count => (db, count)
  | u :: rest, db, count =>
    match db.schedules.find? (schedKey u current) with
    | some _ => bulkUsersLoop st et creator now current rest db count
    | none =>
      let schedule : Schedule :=
        { id := db.nextId
          user_id := u
          date := current
          start_time := st
          end_time := et
          notes := ""
          created_by := creator
          created_at := now }
      let notif : Notification :=
        { user_id := u
          title := "New Shift Assigned"
          message := "You have been assigned a shift on " ++ fmtDMY current
          type := "shift"
          is_read := false
          is_popup := true
          related_id := none
          related_type := none }
      bulkUsersLoop st et creator now current rest
        { db with
          schedules := db.schedules ++ [schedule]
          notifications := db.notifications ++ [notif]
          nextId := db.nextId + 1 }
        (count + 1)

/-- Date loop of bulk_assign_schedule (src/app/admin/__init__.py lines
414-446): walk current from the start date while current is at most the end
date; on days whose weekday is in the selected set, run the user loop. -/
def bulkDayLoop (endD : PDate) (selected_days user_ids : List Nat)
    (st et creator now : Nat) : Nat → PDate → Db → Nat → Db × Nat
  | 0, _, db, count => (db, count)
  | fuel + 1, current, db, count =>
    if dateLe current endD then
      let step :=
        if selected_days.contains (weekday current) then
          bulkUsersLoop st et creator now current user_ids db count
        else (db, count)
      bulkDayLoop endD selected_days user_ids st et creator now fuel (nextDay current)
        step.1 step.2
    else (db, count)

/-- bulk_assign_schedule, src/app/admin/__init__.py lines 393-455. -/
def bulk_assign_schedule (db : Db) (user_ids : List Nat)
    (start_date end_date : PDate) (st et : Nat) (days_of_week : List Nat)
    (creator now : Nat) : Db × Nat :=
  bulkDayLoop end_date days_of_week user_ids st et creator now
    (rd end_date + 1 - rd start_date) start_date db 0

/-- Day cell of the calendar grid (src/app/main/__init__.py lines 353-362). -/
structure DayData where
  date : PDate
  day : Nat
  is_weekend : Bool
  is_today : Bool
  schedule : Option Schedule
  leave : Option LeaveRequest
  unavailable : Option Unavailability
  restricted : Option RestrictedDay
deriving DecidableEq, Repr

/-- Python dict comprehension keyed by date; on duplicate keys the last
element wins, hence the reversed first-match search. -/
def dictByDate {α : Type} (key : α → PDate) (l : List α) (d : PDate) : Option α :=
  l.reverse.find? (fun x => key x == d)

/-- Lookup in the leave_dates dict of build_calendar_month (src/app/main/
__init__.py lines 334-340): a date maps to the last request whose expanded
span contains it, restricted to dates of the displayed month. -/
def leaveDatesLookup (year month : Nat) (leave_requests : List LeaveRequest)
    (d : PDate) : Option LeaveRequest :=
  leave_requests.reverse.find? (fun lr =>
    (listDates lr.start_date (rd lr.end_date + 1 - rd lr.start_date)).contains d
      && d.month == month && d.year == year)

/-- Day loop of build_calendar_month (src/app/main/__init__.py lines
351-369): walk current from the first day while current is at most the last
day, building one cell per day. -/
def calDays (year month : Nat) (today : PDate) (schedules : List Schedule)
    (leave_requests : List LeaveRequest) (unavailable_days : List Unavailability)
    (restricted_days : List RestrictedDay) : Nat → PDate → List DayData
  | 0, _ => []
  | fuel + 1, current =>
    if dateLe current ⟨year, month, monthLength year month⟩ then
      { date := current
        day := current.day
        is_weekend := decide (5 ≤ weekday current)
        is_today := current == today
        schedule := dictByDate (fun s => s.date) schedules current
        leave := leaveDatesLookup year month leave_requests current
        unavailable := dictByDate (fun u => u.date) unavailable_days current
        restricted := dictByDate (fun r => r.date) restricted_days current } ::
      calDays year month today schedules leave_requests unavailable_days restricted_days
        fuel (nextDay current)
    else []

/-- Week flushing loop of build_calendar_month (src/app/main/__init__.py
lines 342-369): append cells to the current week, emitting it whenever it
reaches 7 cells. -/
def dayLoop {α : Type} : List α → List (List α) → List α → List (List α) × List α
  | [], weeks, current_week => (weeks, current_week)
  | c :: rest, weeks, current_week =>
    let cw := current_week ++ [c]
    if cw.length = 7 then dayLoop rest (weeks ++ [cw]) []
    else dayLoop rest weeks cw

/-- build_calendar_month, src/app/main/__init__.py lines 323-377. -/
def build_calendar_month (year month : Nat) (today : PDate)
    (schedules : List Schedule) (leave_requests : List LeaveRequest)
    (unavailable_days : List Unavailability)
    (restricted_days : List RestrictedDay) : List (List (Option DayData)) :=
  let first_day : PDate := ⟨year, month, 1⟩
  let last_day : PDate := ⟨year, month, monthLength year month⟩
  let cells := calDays year month today schedules leave_requests unavailable_days
    restricted_days (rd last_day + 1 - rd first_day) first_day
  let lead : List (Option DayData) := List.replicate (weekday first_day) none
  let r := dayLoop (cells.map some) [] lead
  if r.2.isEmpty then r.1
  else r.1 ++ [r.2 ++ List.replicate (7 - r.2.length) none]

/-- request_leave, src/app/main/__init__.py lines 186-232 (POST path; date
parsing is done by the HTTP layer and is outside the model).  The end
before start early return (flash: End date cannot be before start date) is
mapped to validationError.  The leave type id from the form is stored as
given, with no validity check; a single .first() query over the restricted
day date range only adds a warning flash naming the first overlapping
restricted day, the stored reason being left unmodified; no balance check
is performed and no notification is created.  The restricted day table is
passed alongside the state, as for build_calendar_month. -/
def request_leave (db : Db) (restricted_days : List RestrictedDay)
    (current_user leave_type_id : Nat) (start endD : PDate) (reason : String) :
    Except AppError (Db × List (String × String)) :=
  if dateLt endD start then .error .validationError
  else
    let warn : List (String × String) :=
      match restricted_days.find? (fun r =>
          decide (dateLe start r.date) && decide (dateLe r.date endD)) with
      | some r =>
        [("Your request includes a restricted day (" ++ fmtDMY r.date ++ "). Reason: "
            ++ r.reason ++ ". This request will need special approval.", "warning")]
      | none => []
    let leave_request : LeaveRequest :=
      { id := db.nextId
        user_id := current_user
        leave_type_id := leave_type_id
        start_date := start
        end_date := endD
        reason := reason
        status := "pending"
        reviewed_by := none
        reviewed_at := none
        review_notes := none }
    .ok ({ db with
           requests := db.requests ++ [leave_request]
           nextId := db.nextId + 1 },
         warn ++ [("Leave request submitted successfully", "success")])

end V2

namespace V1

/-- LeaveRequest rows from src/app.py lines 166-182. -/
structure LeaveRequest where
  id : Nat
  user_id : Nat
  leave_type_id : Nat
  start_date : PDate
  end_date : PDate
  reason : String
  status : String
  reviewed_by : Option Nat
  reviewed_at : Option Nat
  review_notes : Option String
deriving DecidableEq, Repr

/-- LeaveRequest.days_count, src/app.py lines 184-187: the timedelta length
of the interval plus one, counting every calendar day. -/
def LeaveRequest.days_count (r : LeaveRequest) : Int :=
  ((rd r.end_date : Int) - (rd r.start_date : Int)) + 1

/-- User rows from src/app.py (fields used by the blueprints). -/
structure User where
  id : Nat
  full_name : String
  is_first_user : Bool
  is_active : Bool
deriving DecidableEq, Repr

/-- LeaveType rows from src/app.py lines 135-144. -/
structure LeaveType where
  id : Nat
  name : String
  is_active : Bool
deriving DecidableEq, Repr

/-- LeaveAllowance rows from src/app.py lines 147-163. -/
structure LeaveAllowance where
  id : Nat
  user_id : Nat
  leave_type_id : Nat
  year : Nat
  total_days : ℚ
  used_days : ℚ
deriving DecidableEq, Repr

/-- LeaveAllowance.remaining_days, src/app.py lines 159-161. -/
def LeaveAllowance.remaining_days (a : LeaveAllowance) : ℚ :=
  a.total_days - a.used_days

/-- RestrictedDay rows from src/app.py lines 190-197. -/
structure RestrictedDay where
  id : Nat
  date : PDate
  reason : String
deriving DecidableEq, Repr

/-- Notification rows created through create_notification, src/app.py lines
320-333. -/
structure Notification where
  user_id : Nat
  title : String
  message : String
  notification_type : String
  reference_id : Option Nat
  reference_type : Option String
  is_popup : Bool
deriving DecidableEq, Repr

/-- Relational state touched by the user blueprint. -/
structure Db where
  users : List User
  leave_types : List LeaveType
  allowances : List LeaveAllowance
  restricted_days : List RestrictedDay
  requests : List LeaveRequest
  notifications : List Notification
  nextId : Nat
deriving DecidableEq, Repr

/-- cancel_leave, src/blueprints/user.py lines 293-312.  The early returns
are mapped onto the error taxonomy of the specification: get_or_404 to
notFound, the ownership check (flash: You can only cancel your own leave
requests.) to permissionError, and the status check (flash: Only pending
requests can be cancelled.) to invalidStateError. -/
def cancel_leave (db : Db) (leave_id current_user : Nat) : Except AppError Db :=
  match db.requests.find? (fun r => r.id == leave_id) with
  | none => .error .notFound
  | some leave_request =>
    if leave_request.user_id ≠ current_user then .error .permissionError
    else if leave_request.status ≠ "pending" then .error .invalidStateError
    else .ok { db with requests := db.requests.eraseP (fun r => r.id == leave_id) }

/-- request_leave, src/blueprints/user.py lines 208-290.  Date parsing is
done by the HTTP layer and is outside the model.  The early returns are
mapped onto the error taxonomy: end before start (flash: End date cannot be
before start date.) to validationError, and a missing or inactive leave
type (flash: Invalid leave type.) to notFound, the referenced entity being
soft deleted or absent.  The returned list carries the flash messages of
the successful path in order: the optional insufficient balance warning,
then the success message. -/
def request_leave (db : Db) (current_user : User) (leave_type_id : Nat)
    (start_date end_date : PDate) (reason : String) :
    Except AppError (Db × List (String × String)) :=
  if dateLt end_date start_date then .error .validationError
  else
    match db.leave_types.find? (fun t => t.id == leave_type_id) with
    | none => .error .notFound
    | some leave_type =>
      if ¬ leave_type.is_active then .error .notFound
      else
        let restricted_days :=
          (listDates start_date (rd end_date + 1 - rd start_date)).filter
            (fun d => (db.restricted_days.find? (fun r => r.date == d)).isSome)
        let days_requested :=
          weekdayCountLoop (rd end_date + 1 - rd start_date) start_date end_date
        let allowance := db.allowances.find? (fun a =>
          a.user_id == current_user.id && a.leave_type_id == leave_type_id
            && a.year == start_date.year)
        let warn : List (String × String) :=
          match allowance with
          | some a =>
            if (days_requested : ℚ) > a.remaining_days then
              [("Insufficient leave balance. You have " ++ toString a.remaining_days
                  ++ " days remaining.", "warning")]
            else []
          | none => []
        let leave_request : LeaveRequest :=
          { id := db.nextId
            user_id := current_user.id
            leave_type_id := leave_type_id
            start_date := start_date
            end_date := end_date
            reason := reason ++
              (if restricted_days.isEmpty then ""
               else " [Contains restricted days: "
                 ++ String.intercalate ", " (restricted_days.map fmtDMY) ++ "]")
            status := "pending"
            reviewed_by := none
            reviewed_at := none
            review_notes := none }
        let admins := db.users.filter (fun u => u.is_first_user)
        let notifs := admins.map (fun admin =>
          ({ user_id := admin.id
             title := "New Leave Request"
             message := current_user.full_name ++ " requested " ++ leave_type.name
               ++ " from " ++ fmtDMY start_date ++ " to " ++ fmtDMY end_date
             notification_type := "leave"
             reference_id := some leave_request.id
             reference_type := some "leave_request"
             is_popup := true } : Notification))
        .ok ({ db with
               requests := db.requests ++ [leave_request]
               notifications := db.notifications ++ notifs
               nextId := db.nextId + 1 },
             warn ++ [("Leave request submitted successfully.", "success")])

end V1

-- ==================== SPECIFICATION SIDE DEFINITIONS ====================

/-- Number of weekdays (Monday to Friday) among the rata die day numbers in
the inclusive interval [a, b]; day n has weekday (n - 1) % 7 with
Monday = 0. -/
def countWeekdays (a b : Nat) : Nat :=
  (List.range (b + 1 - a)).countP (fun i => decide ((a + i - 1) % 7 < 5))

/-- Count of (user, matching weekday day) pairs of the given date list that
have no schedule row in the given state. -/
def specNewCount (db : V2.Db) (dates : List PDate) (selected user_ids : List Nat) : Nat :=
  ((dates.filter (fun d => selected.contains (weekday d))).map
    (fun d => user_ids.countP (fun u => (db.schedules.find? (V2.schedKey u d)).isNone))).sum

/-- Greedy partition of a list into consecutive blocks of 7. -/
def chunk7 {α : Type} (l : List α) : List (List α) :=
  if h : 7 ≤ l.length then
    have : l.length - 7 < l.length := by omega
    l.take 7 :: chunk7 (l.drop 7)
  else []
termination_by l.length
decreasing_by simp; omega

/-- Remainder of the greedy partition into blocks of 7. -/
def rem7 {α : Type} (l : List α) : List α :=
  if h : 7 ≤ l.length then
    have : l.length - 7 < l.length := by omega
    rem7 (l.drop 7)
  else l
termination_by l.length
decreasing_by simp; omega

-- ==================== CONCRETE FIXTURES ====================

/-- Pending request over the working week Mon 2024-01-01 to Fri 2024-01-05. -/
def reqC1 : V2.LeaveRequest :=
  { id := 1, user_id := 7, leave_type_id := 1, start_date := ⟨2024, 1, 1⟩,
    end_date := ⟨2024, 1, 5⟩, reason := "", status := "pending",
    reviewed_by := none, reviewed_at := none, review_notes := none }

/-- State with a pending request and an empty ledger. -/
def dbC1 : V2.Db :=
  { leave_types := [⟨1, "Annual Leave", true⟩], requests := [reqC1],
    allocations := [], schedules := [], notifications := [], nextId := 2 }

/-- Request that has already been approved. -/
def reqC2 : V2.LeaveRequest :=
  { id := 1, user_id := 7, leave_type_id := 1, start_date := ⟨2024, 1, 1⟩,
    end_date := ⟨2024, 1, 5⟩, reason := "", status := "approved",
    reviewed_by := some 3, reviewed_at := some 10, review_notes := some "ok" }

/-- Ledger row already debited for reqC2. -/
def allocC2 : V2.LeaveAllocation :=
  { id := 1, user_id := 7, leave_type_id := 1, year := 2024,
    allocated_days := 25, allocated_hours := 0, used_days := 5, used_hours := 0 }

/-- State with an approved request and its ledger row. -/
def dbC2 : V2.Db :=
  { leave_types := [⟨1, "Annual Leave", true⟩], requests := [reqC2],
    allocations := [allocC2], schedules := [], notifications := [], nextId := 2 }

/-- Request over the weekend Sat 2024-01-06 to Sun 2024-01-07, in the app
package model. -/
def reqC3 : V2.LeaveRequest :=
  { id := 2, user_id := 7, leave_type_id := 1, start_date := ⟨2024, 1, 6⟩,
    end_date := ⟨2024, 1, 7⟩, reason := "", status := "pending",
    reviewed_by := none, reviewed_at := none, review_notes := none }

/-- Request over the weekend Sat 2024-01-06 to Sun 2024-01-07, in the
src/app.py model. -/
def reqC3v1 : V1.LeaveRequest :=
  { id := 2, user_id := 7, leave_type_id := 1, start_date := ⟨2024, 1, 6⟩,
    end_date := ⟨2024, 1, 7⟩, reason := "", status := "pending",
    reviewed_by := none, reviewed_at := none, review_notes := none }

/-- Pending request of user 7 in the src/app.py model. -/
def reqC4 : V1.LeaveRequest :=
  { id := 1, user_id := 7, leave_type_id := 1, start_date := ⟨2024, 1, 1⟩,
    end_date := ⟨2024, 1, 5⟩, reason := "", status := "pending",
    reviewed_by := none, reviewed_at := none, review_notes := none }

/-- State of the user blueprint with one pending request and one allowance
row. -/
def dbC4 : V1.Db :=
  { users := [⟨7, "Ada Crane", false, true⟩],
    leave_types := [⟨1, "Annual Leave", true⟩],
    allowances := [⟨1, 7, 1, 2024, 25, 0⟩],
    restricted_days := [], requests := [reqC4], notifications := [], nextId := 2 }

/-- State of the user blueprint with an active leave type, a generous
allowance, and a restricted day inside the requested range. -/
def dbC5 : V1.Db :=
  { users := [⟨1, "Site Admin", true, true⟩],
    leave_types := [⟨1, "Annual Leave", true⟩],
    allowances := [⟨1, 8, 1, 2024, 25, 0⟩],
    restricted_days := [⟨1, ⟨2024, 3, 13⟩, "inventory"⟩],
    requests := [], notifications := [], nextId := 1 }

/-- Requester of the concrete submissions. -/
def userC5 : V1.User := ⟨7, "Ada Crane", false, true⟩

/-- Empty app package state for the main blueprint request_leave variant. -/
def dbC5v2 : V2.Db := ⟨[], [], [], [], [], 1⟩

/-- Restricted day table of the app package variant, naming the same
2024-03-13 restricted day as the blueprint counterexample state. -/
def restC5 : List V2.RestrictedDay := [⟨1, ⟨2024, 3, 13⟩, "inventory"⟩]

/-- Undebited ledger row matching reqC1. -/
def allocC1 : V2.LeaveAllocation :=
  { id := 1, user_id := 7, leave_type_id := 1, year := 2024,
    allocated_days := 25, allocated_hours := 0, used_days := 0, used_hours := 0 }

/-- State with a pending request and its ledger row. -/
def dbC1w : V2.Db :=
  { leave_types := [⟨1, "Annual Leave", true⟩], requests := [reqC1],
    allocations := [allocC1], schedules := [], notifications := [], nextId := 2 }

/-- Ledger row with used_days above allocated_days. -/
def allocC9 : V2.LeaveAllocation :=
  { id := 1, user_id := 2, leave_type_id := 3, year := 2024,
    allocated_days := 5, allocated_hours := 0, used_days := 8, used_hours := 0 }

/-- Ledger row for the allocation upsert example. -/
def allocC10 : V2.LeaveAllocation :=
  { id := 4, user_id := 2, leave_type_id := 3, year := 2024,
    allocated_days := 10, allocated_hours := 0, used_days := 4, used_hours := 0 }

/-- State with a single ledger row. -/
def dbC10 : V2.Db :=
  { leave_types := [], requests := [], allocations := [allocC10],
    schedules := [], notifications := [], nextId := 5 }

/-- Empty admin state used by the schedule examples. -/
def dbC7 : V2.Db :=
  { leave_types := [], requests := [], allocations := [],
    schedules := [], notifications := [], nextId := 1 }

/-- Schedule row already present before a bulk assignment, on Mon
2024-01-01. -/
def schedC8 : V2.Schedule :=
  { id := 1, user_id := 4, date := ⟨2024, 1, 1⟩, start_time := 540,
    end_time := 1020, notes := "", created_by := 1, created_at := 0 }

/-- State with one pre existing schedule row. -/
def dbC8 : V2.Db :=
  { leave_types := [], requests := [], allocations := [],
    schedules := [schedC8], notifications := [], nextId := 2 }

-- ==================== LEMMAS AND THEOREMS ====================

lemma leapsBefore_succ (n : Nat) :
    leapsBefore (n + 1) = leapsBefore n + (if isLeap (n + 1) then 1 else 0) := by
  have h4 : (n + 1) / 4 = n / 4 + if 4 ∣ (n + 1) then 1 else 0 := Nat.succ_div n 4
  have h100 : (n + 1) / 100 = n / 100 + if 100 ∣ (n + 1) then 1 else 0 := Nat.succ_div n 100
  have h400 : (n + 1) / 400 = n / 400 + if 400 ∣ (n + 1) then 1 else 0 := Nat.succ_div n 400
  have hle : n / 100 ≤ n / 4 := Nat.div_le_div_left (by norm_num) (by norm_num)
  have hd1 : 100 ∣ (n + 1) → 4 ∣ (n + 1) := fun h => dvd_trans (by norm_num) h
  have hd2 : 400 ∣ (n + 1) → 100 ∣ (n + 1) := fun h => dvd_trans (by norm_num) h
  have hleap : isLeap (n + 1) = true ↔ (4 ∣ (n + 1) ∧ (¬ 100 ∣ (n + 1) ∨ 400 ∣ (n + 1))) := by
    simp only [isLeap, Bool.and_eq_true, Bool.or_eq_true, beq_iff_eq, bne_iff_ne, ne_eq,
      Nat.dvd_iff_mod_eq_zero]
  unfold leapsBefore
  rw [h4, h100, h400]
  by_cases c400 : 400 ∣ (n + 1)
  · have c100 := hd2 c400
    have c4 := hd1 c100
    have hl : isLeap (n + 1) = true := hleap.mpr ⟨c4, Or.inr c400⟩
    rw [if_pos c4, if_pos c100, if_pos c400, hl, if_pos rfl]
    omega
  · by_cases c100 : 100 ∣ (n + 1)
    · have c4 := hd1 c100
      have hl : isLeap (n + 1) = false := by
        cases h : isLeap (n + 1)
        · rfl
        · rcases (hleap.mp h).2 with hc | hc
          · exact absurd c100 hc
          · exact absurd hc c400
      rw [if_pos c4, if_pos c100, if_neg c400, hl]
      simp only [Bool.false_eq_true, if_false]
      omega
    · by_cases c4 : 4 ∣ (n + 1)
      · have hl : isLeap (n + 1) = true := hleap.mpr ⟨c4, Or.inl c100⟩
        rw [if_pos c4, if_neg c100, if_neg c400, hl, if_pos rfl]
        omega
      · have hl : isLeap (n + 1) = false := by
          cases h : isLeap (n + 1)
          · rfl
          · exact absurd (hleap.mp h).1 c4
        rw [if_neg c4, if_neg c100, if_neg c400, hl]
        simp only [Bool.false_eq_true, if_false]
        omega

lemma daysBeforeMonth_succ (y m : Nat) (h1 : 1 ≤ m) (h2 : m ≤ 11) :
    daysBeforeMonth y (m + 1) = daysBeforeMonth y m + monthLength y m := by
  interval_cases m <;>
    cases h : isLeap y <;>
      simp [daysBeforeMonth, monthLength, h]

lemma monthLength_pos (y m : Nat) (h1 : 1 ≤ m) (h2 : m ≤ 12) : 1 ≤ monthLength y m := by
  interval_cases m <;> cases hl : isLeap y <;> simp [monthLength, hl]

lemma rd_nextDay (d : PDate) (h : d.Valid) : rd (nextDay d) = rd d + 1 := by
  obtain ⟨hy, hm1, hm2, hd1, hd2⟩ := h
  unfold nextDay
  by_cases hlt : d.day < monthLength d.year d.month
  · rw [if_pos hlt]
    show 365 * (d.year - 1) + leapsBefore (d.year - 1) + daysBeforeMonth d.year d.month
        + (d.day + 1) = _
    simp only [rd]
    omega
  · rw [if_neg hlt]
    have hdl : d.day = monthLength d.year d.month := le_antisymm hd2 (not_lt.mp hlt)
    by_cases hm : d.month < 12
    · rw [if_pos hm]
      have hstep := daysBeforeMonth_succ d.year d.month hm1 (by omega)
      show 365 * (d.year - 1) + leapsBefore (d.year - 1) + daysBeforeMonth d.year (d.month + 1)
          + 1 = _
      simp only [rd]
      omega
    · rw [if_neg hm]
      have hm12 : d.month = 12 := by omega
      have hday : d.day = 31 := by rw [hdl, hm12]; rfl
      have hdb12 : daysBeforeMonth d.year 12 = 334 + (if isLeap d.year then 1 else 0) := by
        simp [daysBeforeMonth]
      have hdb1 : daysBeforeMonth (d.year + 1) 1 = 0 := by
        simp [daysBeforeMonth]
      have hstep : leapsBefore d.year = leapsBefore (d.year - 1) + (if isLeap d.year then 1 else 0) := by
        obtain ⟨y0, hy0⟩ : ∃ y0, d.year = y0 + 1 := ⟨d.year - 1, by omega⟩
        rw [hy0, Nat.add_sub_cancel]
        exact leapsBefore_succ y0
      show 365 * (d.year + 1 - 1) + leapsBefore (d.year + 1 - 1) + daysBeforeMonth (d.year + 1) 1
          + 1 = _
      simp only [rd, Nat.add_sub_cancel, hdb1, hm12, hdb12, hday, hstep]
      split <;> omega

lemma valid_nextDay (d : PDate) (h : d.Valid) : (nextDay d).Valid := by
  obtain ⟨hy, hm1, hm2, hd1, hd2⟩ := h
  unfold nextDay
  by_cases hlt : d.day < monthLength d.year d.month
  · rw [if_pos hlt]
    exact ⟨hy, hm1, hm2, by show 1 ≤ d.day + 1; omega,
      by show d.day + 1 ≤ monthLength d.year d.month; omega⟩
  · rw [if_neg hlt]
    by_cases hm : d.month < 12
    · rw [if_pos hm]
      refine ⟨hy, by show 1 ≤ d.month + 1; omega, by show d.month + 1 ≤ 12; omega,
        le_refl 1, ?_⟩
      show 1 ≤ monthLength d.year (d.month + 1)
      exact monthLength_pos _ _ (by omega) (by omega)
    · rw [if_neg hm]
      exact ⟨by show 1 ≤ d.year + 1; omega, le_refl 1, by norm_num, le_refl 1,
        by show 1 ≤ monthLength (d.year + 1) 1; norm_num [monthLength]⟩

lemma weekday_lt_7 (d : PDate) : weekday d < 7 :=
  Nat.mod_lt _ (by norm_num)

lemma find?_append_cons {α : Type} (p : α → Bool) (l1 : List α) (a : α) (l2 : List α)
    (h : ∀ b ∈ l1, p b = false) (ha : p a = true) :
    (l1 ++ a :: l2).find? p = some a := by
  induction l1 with
  | nil => exact List.find?_cons_of_pos _ ha
  | cons x xs ih =>
    have hx : p x = false := h x (by simp)
    rw [List.cons_append, List.find?_cons_of_neg _ (by simp [hx])]
    exact ih fun b hb => h b (by simp [hb])

lemma find?_append_none {α : Type} (p : α → Bool) (l1 l2 : List α)
    (h : l1.find? p = none) : (l1 ++ l2).find? p = l2.find? p := by
  induction l1 with
  | nil => simp
  | cons x xs ih =>
    cases hx : p x with
    | true =>
      rw [List.find?_cons_of_pos _ hx] at h
      exact absurd h (by simp)
    | false =>
      rw [List.find?_cons_of_neg _ (by simp [hx])] at h
      rw [List.cons_append, List.find?_cons_of_neg _ (by simp [hx])]
      exact ih h

lemma updateFirst_append_cons {α : Type} (p : α → Bool) (f : α → α) (l1 : List α)
    (a : α) (l2 : List α) (h : ∀ b ∈ l1, p b = false) (ha : p a = true) :
    updateFirst p f (l1 ++ a :: l2) = l1 ++ f a :: l2 := by
  induction l1 with
  | nil => simp [updateFirst, ha]
  | cons x xs ih =>
    have hx : p x = false := h x (by simp)
    simp only [List.cons_append, updateFirst, hx, Bool.false_eq_true, if_false, List.cons.injEq,
      true_and]
    exact ih fun b hb => h b (by simp [hb])

lemma find?_updateFirst {α : Type} (p : α → Bool) (f : α → α) (l : List α)
    (hp : ∀ a, p a = true → p (f a) = true) :
    (updateFirst p f l).find? p = (l.find? p).map f := by
  induction l with
  | nil => rfl
  | cons x xs ih =>
    cases hx : p x with
    | true =>
      simp only [updateFirst, hx, if_true]
      rw [List.find?_cons_of_pos _ (hp x hx), List.find?_cons_of_pos _ hx]
      rfl
    | false =>
      simp only [updateFirst, hx, Bool.false_eq_true, if_false]
      rw [List.find?_cons_of_neg _ (by simp [hx]), List.find?_cons_of_neg _ (by simp [hx])]
      exact ih

lemma updateFirst_idem {α : Type} (p : α → Bool) (f : α → α) (l : List α)
    (hp : ∀ a, p a = true → p (f a) = true) (hf : ∀ a, p a = true → f (f a) = f a) :
    updateFirst p f (updateFirst p f l) = updateFirst p f l := by
  induction l with
  | nil => rfl
  | cons x xs ih =>
    cases hx : p x with
    | true =>
      simp only [updateFirst, hx, if_true, hp x hx, hf x hx]
    | false =>
      simp only [updateFirst, hx, Bool.false_eq_true, if_false, ih]

/-- C9: for every ledger row, remaining_days is allocated_days minus
used_days with no defensive clamping, and is strictly negative whenever
used_days exceeds allocated_days. -/
theorem remaining_days_unclamped (a : V2.LeaveAllocation) :
    a.remaining_days = a.allocated_days - a.used_days ∧
      (a.allocated_days < a.used_days → a.remaining_days < 0) :=
  ⟨rfl, fun h => sub_neg.mpr h⟩

/-- Witness for C9 at a ledger row with used_days 8 against allocated_days
5: remaining_days is negative. -/
theorem remaining_days_unclamped_witness :
    allocC9.allocated_days < allocC9.used_days ∧ allocC9.remaining_days < 0 :=
  ⟨by decide, (remaining_days_unclamped allocC9).2 (by decide)⟩

/-- C10: update_allocation is an upsert keyed by (user, leave type, year)
that never touches used_days: an existing row has exactly its
allocated_days overwritten and every other field kept, an absent key
inserts a fresh row with used_days 0, and repeating the call is the
identity on the result. -/
theorem update_allocation_upsert (db : V2.Db) (u lt y : Nat) (days : ℚ) :
    (∀ l1 a0 l2, db.allocations = l1 ++ a0 :: l2 →
        (∀ b ∈ l1, V2.allocKey u lt y b = false) → V2.allocKey u lt y a0 = true →
        (V2.update_allocation db u lt y days).allocations
          = l1 ++ { a0 with allocated_days := days } :: l2) ∧
    (db.allocations.find? (V2.allocKey u lt y) = none →
        (V2.update_allocation db u lt y days).allocations
          = db.allocations ++
            [{ id := db.nextId, user_id := u, leave_type_id := lt, year := y,
               allocated_days := days, allocated_hours := 0, used_days := 0,
               used_hours := 0 }]) ∧
    V2.update_allocation (V2.update_allocation db u lt y days) u lt y days
      = V2.update_allocation db u lt y days := by
  have hkeep : ∀ a : V2.LeaveAllocation, V2.allocKey u lt y a = true →
      V2.allocKey u lt y { a with allocated_days := days } = true := by
    intro a ha
    simpa [V2.allocKey] using ha
  have hffix : ∀ a : V2.LeaveAllocation, V2.allocKey u lt y a = true →
      ({ { a with allocated_days := days } with allocated_days := days }
        : V2.LeaveAllocation) = { a with allocated_days := days } := by
    intro a _
    rfl
  refine ⟨?_, ?_, ?_⟩
  · intro l1 a0 l2 hdec hl1 ha0
    have hf : db.allocations.find? (V2.allocKey u lt y) = some a0 := by
      rw [hdec]
      exact find?_append_cons _ _ _ _ hl1 ha0
    simp only [V2.update_allocation, hf]
    rw [hdec]
    exact updateFirst_append_cons _ _ _ _ _ hl1 ha0
  · intro hf
    simp only [V2.update_allocation, hf]
  · cases hf : db.allocations.find? (V2.allocKey u lt y) with
    | some a0 =>
      have h2 : (updateFirst (V2.allocKey u lt y)
          (fun a => { a with allocated_days := days }) db.allocations).find?
            (V2.allocKey u lt y) = some { a0 with allocated_days := days } := by
        rw [find?_updateFirst _ _ _ hkeep, hf]
        rfl
      simp only [V2.update_allocation, hf, h2]
      rw [updateFirst_idem _ _ _ hkeep hffix]
    | none =>
      have hall : ∀ b ∈ db.allocations, V2.allocKey u lt y b = false := by
        intro b hb
        have := List.find?_eq_none.mp hf b hb
        simpa using this
      have hnew : V2.allocKey u lt y
          { id := db.nextId, user_id := u, leave_type_id := lt, year := y,
            allocated_days := days, allocated_hours := 0, used_days := 0,
            used_hours := 0 } = true := by
        simp [V2.allocKey]
      have h2 : (db.allocations ++
          [({ id := db.nextId, user_id := u, leave_type_id := lt, year := y,
              allocated_days := days, allocated_hours := 0, used_days := 0,
              used_hours := 0 } : V2.LeaveAllocation)]).find? (V2.allocKey u lt y)
          = some { id := db.nextId, user_id := u, leave_type_id := lt, year := y,
                   allocated_days := days, allocated_hours := 0, used_days := 0,
                   used_hours := 0 } :=
        find?_append_cons _ _ _ _ hall hnew
      simp only [V2.update_allocation, hf, h2]
      rw [updateFirst_append_cons _ _ _ _ _ hall hnew]

/-- Witness for C10 at a one row ledger: overwriting the allocation of the
existing key keeps used_days, and a fresh key appends a row with used_days
zero. -/
theorem update_allocation_upsert_witness :
    (V2.update_allocation dbC10 2 3 2024 12).allocations
        = [{ allocC10 with allocated_days := 12 }] ∧
      (V2.update_allocation dbC10 9 3 2024 7).allocations
        = [allocC10,
           { id := 5, user_id := 9, leave_type_id := 3, year := 2024,
             allocated_days := 7, allocated_hours := 0, used_days := 0,
             used_hours := 0 }] :=
  ⟨(update_allocation_upsert dbC10 2 3 2024 12).1 [] allocC10 [] rfl
      (by intro b hb; cases hb) (by decide),
   (update_allocation_upsert dbC10 9 3 2024 7).2.1 (by decide)⟩

/-- C4: cancel_leave fails with permissionError unless the actor owns the
request, fails with invalidStateError unless the request is pending, and on
success deletes exactly the request while every allowance row is kept. -/
theorem cancel_leave_spec (db : V1.Db) (lid cu : Nat) (r : V1.LeaveRequest)
    (hr : db.requests.find? (fun q => q.id == lid) = some r) :
    (r.user_id ≠ cu → V1.cancel_leave db lid cu = .error .permissionError) ∧
    (r.user_id = cu → r.status ≠ "pending" →
        V1.cancel_leave db lid cu = .error .invalidStateError) ∧
    (r.user_id = cu → r.status = "pending" →
        ∃ db2, V1.cancel_leave db lid cu = .ok db2 ∧
          db2.requests = db.requests.eraseP (fun q => q.id == lid) ∧
          db2.allowances = db.allowances ∧
          db2.requests.length + 1 = db.requests.length ∧
          ∀ q ∈ db2.requests, q ∈ db.requests) := by
  refine ⟨?_, ?_, ?_⟩
  · intro hne
    simp only [V1.cancel_leave, hr, if_pos hne]
  · intro he hst
    simp only [V1.cancel_leave, hr, if_neg (not_not_intro he), if_pos hst]
  · intro he hst
    refine ⟨{ db with requests := db.requests.eraseP (fun q => q.id == lid) },
      by simp only [V1.cancel_leave, hr, if_neg (not_not_intro he),
        if_neg (not_not_intro hst)],
      rfl, rfl, ?_, ?_⟩
    · have hq : r ∈ db.requests := List.mem_of_find?_eq_some hr
      have hlen := List.length_eraseP_of_mem hq (List.find?_some hr)
      show (db.requests.eraseP (fun q => q.id == lid)).length + 1 = db.requests.length
      have hpos : 0 < db.requests.length := List.length_pos.mpr (List.ne_nil_of_mem hq)
      omega
    · intro q hq
      exact (List.eraseP_sublist _).mem hq

/-- Witness for C4: a foreign actor is rejected with permissionError. -/
theorem cancel_leave_spec_witness :
    V1.cancel_leave dbC4 1 9 = .error .permissionError :=
  (cancel_leave_spec dbC4 1 9 reqC4 rfl).1 (by decide)

lemma countWeekdays_succ (a b : Nat) (h : a ≤ b) :
    countWeekdays a b = (if (a - 1) % 7 < 5 then 1 else 0) + countWeekdays (a + 1) b := by
  have hn : b + 1 - a = (b - a) + 1 := by omega
  have hn2 : b + 1 - (a + 1) = b - a := by omega
  rw [countWeekdays, countWeekdays, hn, hn2, List.range_succ_eq_map, List.countP_cons,
    List.countP_map, Nat.add_comm]
  congr 1
  · simp
  · apply List.countP_congr
    intro x _
    simp only [Function.comp_apply, decide_eq_true_eq]
    omega

lemma weekdayCountLoop_eq (endD : PDate) :
    ∀ (fuel : Nat) (current : PDate), current.Valid →
      fuel = rd endD + 1 - rd current →
      weekdayCountLoop fuel current endD = countWeekdays (rd current) (rd endD) := by
  intro fuel
  induction fuel with
  | zero =>
    intro current _ hf
    have h0 : rd endD + 1 - rd current = 0 := hf.symm
    simp [weekdayCountLoop, countWeekdays, h0]
  | succ n ih =>
    intro current hc hf
    have hle : rd current ≤ rd endD := by omega
    show (if dateLe current endD then
        (if weekday current < 5 then 1 else 0)
          + weekdayCountLoop n (nextDay current) endD
      else 0) = countWeekdays (rd current) (rd endD)
    rw [if_pos (show dateLe current endD from hle)]
    rw [ih (nextDay current) (valid_nextDay _ hc) (by rw [rd_nextDay _ hc]; omega)]
    rw [rd_nextDay _ hc, countWeekdays_succ _ _ hle]
    rfl

/-- Counterexample for C3: in the src/app.py model, the Saturday to Sunday
request 2024-01-06 to 2024-01-07 has days_count 2, while the number of
weekdays in that range is 0, contradicting the claimed equality. -/
theorem days_count_weekend_cex :
    reqC3v1.days_count = 2
      ∧ countWeekdays (rd reqC3v1.start_date) (rd reqC3v1.end_date) = 0 := by
  constructor <;> decide

/-- Amended C3: the app package days_count is the weekday count of the
inclusive range (with the two claimed examples), while the src/app.py
days_count counts every calendar day of the inclusive range, weekends
included. -/
theorem days_count_amended :
    (∀ r : V2.LeaveRequest, r.start_date.Valid → r.end_date.Valid →
        dateLe r.start_date r.end_date →
        r.days_count = countWeekdays (rd r.start_date) (rd r.end_date)) ∧
    reqC1.days_count = 5 ∧
    reqC3.days_count = 0 ∧
    (∀ r : V1.LeaveRequest, dateLe r.start_date r.end_date →
        r.days_count = ((rd r.end_date + 1 - rd r.start_date : Nat) : Int)) := by
  refine ⟨fun r hs _ _ => weekdayCountLoop_eq _ _ _ hs rfl, by decide, by decide, ?_⟩
  intro r hle
  have : rd r.start_date ≤ rd r.end_date := hle
  unfold V1.LeaveRequest.days_count
  omega

/-- Witness for C3 at the working week Mon 2024-01-01 to Fri 2024-01-05. -/
theorem days_count_amended_witness :
    reqC1.days_count = countWeekdays (rd reqC1.start_date) (rd reqC1.end_date) :=
  days_count_amended.1 reqC1 (by decide) (by decide) (by decide)

lemma approve_leave_ok (db : V2.Db) (lrid cu now : Nat) (notes : String)
    (r : V2.LeaveRequest) (hr : db.requests.find? (fun q => q.id == lrid) = some r) :
    (∃ db2, V2.approve_leave db lrid cu now notes = .ok db2) ∧
    ∀ db2, V2.approve_leave db lrid cu now notes = .ok db2 →
      db2.requests = updateFirst (fun q => q.id == lrid)
          (fun q => { q with status := "approved", reviewed_by := some cu,
                             reviewed_at := some now, review_notes := some notes })
          db.requests ∧
      db2.schedules = db.schedules ∧
      (∀ l1 a0 l2, db.allocations = l1 ++ a0 :: l2 →
          (∀ b ∈ l1, V2.allocKey r.user_id r.leave_type_id r.start_date.year b = false) →
          V2.allocKey r.user_id r.leave_type_id r.start_date.year a0 = true →
          db2.allocations
            = l1 ++ { a0 with used_days := a0.used_days + (r.days_count : ℚ) } :: l2) ∧
      (db.allocations.find? (V2.allocKey r.user_id r.leave_type_id r.start_date.year)
          = none → db2.allocations = db.allocations) := by
  constructor
  · cases h : V2.approve_leave db lrid cu now notes with
    | ok db2 => exact ⟨db2, rfl⟩
    | error e =>
      simp only [V2.approve_leave, hr] at h
      cases h
  · intro db2 heq
    simp only [V2.approve_leave, hr] at heq
    injection heq with heq
    subst heq
    refine ⟨rfl, rfl, ?_, ?_⟩
    · intro l1 a0 l2 hdec hl1 ha0
      have hfa : db.allocations.find?
          (V2.allocKey r.user_id r.leave_type_id r.start_date.year) = some a0 := by
        rw [hdec]
        exact find?_append_cons _ _ _ _ hl1 ha0
      show (match db.allocations.find?
          (V2.allocKey r.user_id r.leave_type_id r.start_date.year) with
        | some _ => updateFirst (V2.allocKey r.user_id r.leave_type_id r.start_date.year)
            (fun a => { a with used_days := a.used_days + (r.days_count : ℚ) })
            db.allocations
        | none => db.allocations) = _
      rw [hfa, hdec]
      exact updateFirst_append_cons _ _ _ _ _ hl1 ha0
    · intro hfa
      show (match db.allocations.find?
          (V2.allocKey r.user_id r.leave_type_id r.start_date.year) with
        | some _ => updateFirst (V2.allocKey r.user_id r.leave_type_id r.start_date.year)
            (fun a => { a with used_days := a.used_days + (r.days_count : ℚ) })
            db.allocations
        | none => db.allocations) = db.allocations
      rw [hfa]

/-- Counterexample for C1: approving the pending request of dbC1, whose
ledger has no row for (user 7, leave type 1, year 2024), succeeds but
creates no ledger row at all (allocations stay empty), contradicting the
claimed creation of a row with allocated 0 and the claimed decrease of the
remaining balance by days_count. -/
theorem approve_leave_no_ledger_row_cex :
    (V2.approve_leave dbC1 1 9 0 "").toOption.map (fun d => d.allocations) = some []
      ∧ reqC1.status = "pending" ∧ reqC1.days_count = 5 := by
  exact ⟨by decide, rfl, by decide⟩

/-- Amended C1: approving a pending request always succeeds, rewrites the
request with status approved and the review fields, and debits the ledger
only when a row for (user, leave type, year of start_date) already exists;
in that case used_days grows by days_count and remaining_days falls by
days_count, while with no such row the ledger is left entirely unchanged
and no row is created. -/
theorem approve_leave_pending_spec (db : V2.Db) (lrid cu now : Nat) (notes : String)
    (r : V2.LeaveRequest) (hr : db.requests.find? (fun q => q.id == lrid) = some r)
    (_hst : r.status = "pending") :
    (∃ db2, V2.approve_leave db lrid cu now notes = .ok db2) ∧
    ∀ db2, V2.approve_leave db lrid cu now notes = .ok db2 →
      db2.requests = updateFirst (fun q => q.id == lrid)
          (fun q => { q with status := "approved", reviewed_by := some cu,
                             reviewed_at := some now, review_notes := some notes })
          db.requests ∧
      (∀ l1 a0 l2, db.allocations = l1 ++ a0 :: l2 →
          (∀ b ∈ l1, V2.allocKey r.user_id r.leave_type_id r.start_date.year b = false) →
          V2.allocKey r.user_id r.leave_type_id r.start_date.year a0 = true →
          db2.allocations
            = l1 ++ { a0 with used_days := a0.used_days + (r.days_count : ℚ) } :: l2 ∧
          ({ a0 with used_days := a0.used_days + (r.days_count : ℚ) }
              : V2.LeaveAllocation).remaining_days
            = a0.remaining_days - (r.days_count : ℚ)) ∧
      (db.allocations.find? (V2.allocKey r.user_id r.leave_type_id r.start_date.year)
          = none → db2.allocations = db.allocations) := by
  obtain ⟨hex, hall⟩ := approve_leave_ok db lrid cu now notes r hr
  refine ⟨hex, ?_⟩
  intro db2 heq
  obtain ⟨hreq, -, hsome, hnone⟩ := hall db2 heq
  refine ⟨hreq, ?_, hnone⟩
  intro l1 a0 l2 hdec hl1 ha0
  refine ⟨hsome l1 a0 l2 hdec hl1 ha0, ?_⟩
  show a0.allocated_days - (a0.used_days + (r.days_count : ℚ))
      = a0.allocated_days - a0.used_days - (r.days_count : ℚ)
  ring

/-- Witness for C1 at dbC1w: approving the pending week long request debits
the existing ledger row by its days_count. -/
theorem approve_leave_pending_spec_witness :
    (V2.approve_leave dbC1w 1 9 0 "").toOption.map (fun d => d.allocations)
      = some [{ allocC1 with used_days := allocC1.used_days + (reqC1.days_count : ℚ) }] := by
  obtain ⟨⟨db2, heq⟩, hall⟩ := approve_leave_pending_spec dbC1w 1 9 0 "" reqC1 rfl rfl
  obtain ⟨-, hsome, -⟩ := hall db2 heq
  have h := (hsome [] allocC1 [] rfl (by intro b hb; cases hb) (by decide)).1
  rw [heq]
  show some db2.allocations = _
  rw [h]
  rfl

/-- Counterexample for C2: approving the already approved request of dbC2
does not fail with invalidStateError; it succeeds, rewrites the review
fields, and debits the ledger a second time (used_days 5 becomes 10),
contradicting the claimed failure with unchanged state. -/
theorem approve_leave_already_approved_cex :
    (V2.approve_leave dbC2 1 9 0 "x").toOption.map
        (fun d => (d.allocations, d.requests.map (fun q => q.status)))
      = some ([{ allocC2 with used_days := 10 }], ["approved"])
      ∧ reqC2.status = "approved" ∧ allocC2.used_days = 5 := by
  refine ⟨?_, rfl, by norm_num [allocC2]⟩
  obtain ⟨⟨db2, heq⟩, hall⟩ := approve_leave_ok dbC2 1 9 0 "x" reqC2 rfl
  obtain ⟨hreq, -, hsome, -⟩ := hall db2 heq
  have ha := hsome [] allocC2 [] rfl (by intro b hb; cases hb) (by decide)
  have hd : reqC2.days_count = 5 := by decide
  rw [heq]
  show some (db2.allocations, db2.requests.map (fun q => q.status)) = _
  rw [ha, hreq, hd]
  norm_num [allocC2, updateFirst, dbC2, reqC2]

/-- Amended C2: approve_leave never tests the current status: on a request
whose status is not pending it still succeeds, overwrites status and the
review fields, and when a ledger row for (user, leave type, year of
start_date) exists it debits used_days by days_count again, so the ledger
does change whenever days_count is positive. -/
theorem approve_leave_nonpending_spec (db : V2.Db) (lrid cu now : Nat) (notes : String)
    (r : V2.LeaveRequest) (hr : db.requests.find? (fun q => q.id == lrid) = some r)
    (_hst : r.status ≠ "pending") :
    (∃ db2, V2.approve_leave db lrid cu now notes = .ok db2) ∧
    ∀ db2, V2.approve_leave db lrid cu now notes = .ok db2 →
      db2.requests = updateFirst (fun q => q.id == lrid)
          (fun q => { q with status := "approved", reviewed_by := some cu,
                             reviewed_at := some now, review_notes := some notes })
          db.requests ∧
      (∀ l1 a0 l2, db.allocations = l1 ++ a0 :: l2 →
          (∀ b ∈ l1, V2.allocKey r.user_id r.leave_type_id r.start_date.year b = false) →
          V2.allocKey r.user_id r.leave_type_id r.start_date.year a0 = true →
          db2.allocations
            = l1 ++ { a0 with used_days := a0.used_days + (r.days_count : ℚ) } :: l2 ∧
          (0 < r.days_count → db2.allocations ≠ db.allocations)) := by
  obtain ⟨hex, hall⟩ := approve_leave_ok db lrid cu now notes r hr
  refine ⟨hex, ?_⟩
  intro db2 heq
  obtain ⟨hreq, -, hsome, -⟩ := hall db2 heq
  refine ⟨hreq, ?_⟩
  intro l1 a0 l2 hdec hl1 ha0
  have hfirst := hsome l1 a0 l2 hdec hl1 ha0
  refine ⟨hfirst, ?_⟩
  intro hpos hcontra
  have h1 : l1 ++ ({ a0 with used_days := a0.used_days + (r.days_count : ℚ) }
      : V2.LeaveAllocation) :: l2 = l1 ++ a0 :: l2 := by
    rw [← hfirst, hcontra, hdec]
  have h2 := List.append_cancel_left h1
  injection h2 with h3 _
  have h4 : a0.used_days + (r.days_count : ℚ) = a0.used_days :=
    congrArg V2.LeaveAllocation.used_days h3
  have h5 : (r.days_count : ℚ) = 0 := by linarith
  have h6 : r.days_count = 0 := Nat.cast_eq_zero.mp h5
  omega

/-- Witness for C2 at dbC2: re-approving the already approved request adds
its days_count to used_days a second time. -/
theorem approve_leave_nonpending_spec_witness :
    (V2.approve_leave dbC2 1 9 0 "x").toOption.map (fun d => d.allocations)
      = some [{ allocC2 with used_days := allocC2.used_days + (reqC2.days_count : ℚ) }] := by
  obtain ⟨⟨db2, heq⟩, hall⟩ :=
    approve_leave_nonpending_spec dbC2 1 9 0 "x" reqC2 rfl (by decide)
  obtain ⟨-, hsome⟩ := hall db2 heq
  have h := (hsome [] allocC2 [] rfl (by intro b hb; cases hb) (by decide)).1
  rw [heq]
  show some db2.allocations = _
  rw [h]
  rfl

/-- Counterexample for C5: submitting a week that contains the restricted
day 2024-03-13, with ample balance, succeeds with the reason annotated but
with only the success flash: no warning message is returned for the
restricted overlap, contradicting the claimed warning. -/
theorem request_leave_restricted_no_warning_cex :
    (V1.request_leave dbC5 userC5 1 ⟨2024, 3, 11⟩ ⟨2024, 3, 15⟩ "trip").toOption.map
        (fun x => (x.2, x.1.requests.map (fun r => (r.status, r.reason))))
      = some ([("Leave request submitted successfully.", "success")],
              [("pending", "trip [Contains restricted days: 13/03/2024]")]) := by
  decide

/-- Amended C5: request_leave fails with validationError exactly when the
end date is before the start date; for every found and active leave type it
otherwise succeeds and appends a pending request, even when the requested
days exceed the remaining balance (which only adds a non fatal warning
flash) and even when the range overlaps a restricted day, which only
annotates the reason field: no separate warning flash is emitted for the
overlap, so without a balance warning the flashes are exactly the success
message.  Allowance rows are never touched.  The main blueprint variant
(src/app/main/__init__.py lines 186-232) differs: it always succeeds on a
valid range, stores the reason unmodified (no restricted day annotation),
flashes a restricted day warning exactly when the range overlaps some
restricted day, and performs no balance check at all: the flash list is
unchanged under any replacement of the allocations table, which the
handler leaves untouched. -/
theorem request_leave_spec (db : V1.Db) (u : V1.User) (ltid : Nat) (sd ed : PDate)
    (reason : String) :
    (V1.request_leave db u ltid sd ed reason = .error .validationError ↔ dateLt ed sd) ∧
    (∀ lt, db.leave_types.find? (fun t => t.id == ltid) = some lt → lt.is_active = true →
      ¬ dateLt ed sd →
      ∃ db2 msgs, V1.request_leave db u ltid sd ed reason = .ok (db2, msgs) ∧
        (∃ rq, db2.requests = db.requests ++ [rq] ∧
          rq.status = "pending" ∧ rq.user_id = u.id ∧ rq.leave_type_id = ltid ∧
          rq.start_date = sd ∧ rq.end_date = ed ∧
          rq.reason = reason ++
            (if ((listDates sd (rd ed + 1 - rd sd)).filter
                  (fun d => (db.restricted_days.find? (fun r => r.date == d)).isSome)).isEmpty
             then ""
             else " [Contains restricted days: "
               ++ String.intercalate ", "
                   (((listDates sd (rd ed + 1 - rd sd)).filter
                     (fun d => (db.restricted_days.find? (fun r => r.date == d)).isSome)).map
                     fmtDMY)
               ++ "]")) ∧
        db2.allowances = db.allowances ∧
        msgs.getLast? = some ("Leave request submitted successfully.", "success") ∧
        ((∃ a, db.allowances.find? (fun a => a.user_id == u.id && a.leave_type_id == ltid
              && a.year == sd.year) = some a ∧
            (weekdayCountLoop (rd ed + 1 - rd sd) sd ed : ℚ) > a.remaining_days) →
          "warning" ∈ msgs.map (fun m => m.2)) ∧
        ((db.allowances.find? (fun a => a.user_id == u.id && a.leave_type_id == ltid
              && a.year == sd.year) = none ∨
          (∃ a, db.allowances.find? (fun a => a.user_id == u.id && a.leave_type_id == ltid
              && a.year == sd.year) = some a ∧
            ¬ (weekdayCountLoop (rd ed + 1 - rd sd) sd ed : ℚ) > a.remaining_days)) →
          msgs = [("Leave request submitted successfully.", "success")])) ∧
    (∀ (dbm : V2.Db) (restricted : List V2.RestrictedDay) (uid ltid2 : Nat) (rsn : String),
      ¬ dateLt ed sd →
      ∃ db2 msgs, V2.request_leave dbm restricted uid ltid2 sd ed rsn = .ok (db2, msgs) ∧
        (∃ rq, db2.requests = dbm.requests ++ [rq] ∧ rq.reason = rsn ∧
          rq.status = "pending" ∧ rq.user_id = uid ∧ rq.leave_type_id = ltid2 ∧
          rq.start_date = sd ∧ rq.end_date = ed) ∧
        db2.allocations = dbm.allocations ∧
        (∀ a2 : List V2.LeaveAllocation,
          (V2.request_leave { dbm with allocations := a2 } restricted uid ltid2 sd ed
              rsn).toOption.map (fun x => x.2) = some msgs) ∧
        ((∃ r ∈ restricted, dateLe sd r.date ∧ dateLe r.date ed) →
          msgs.map (fun m => m.2) = ["warning", "success"]) ∧
        ((∀ r ∈ restricted, ¬ (dateLe sd r.date ∧ dateLe r.date ed)) →
          msgs = [("Leave request submitted successfully", "success")])) := by
  refine ⟨?_, ?_, ?_⟩
  · constructor
    · intro heq
      by_contra hlt
      simp only [V1.request_leave, if_neg hlt] at heq
      cases hf : db.leave_types.find? (fun t => t.id == ltid) with
      | none =>
        simp only [hf] at heq
        simp at heq
      | some lt =>
        simp only [hf] at heq
        by_cases ha : lt.is_active = true
        · rw [if_neg (not_not_intro ha)] at heq
          simp at heq
        · rw [if_pos ha] at heq
          simp at heq
    · intro hlt
      simp only [V1.request_leave, if_pos hlt]
  · intro lt hf hact hnlt
    simp only [V1.request_leave, if_neg hnlt, hf, if_neg (not_not_intro hact)]
    refine ⟨_, _, rfl, ⟨_, rfl, rfl, rfl, rfl, rfl, rfl, rfl⟩, rfl, ?_, ?_, ?_⟩
    · exact List.getLast?_concat _
    · rintro ⟨a, hfa, hgt⟩
      rw [hfa]
      simp [hgt]
    · rintro (hfa | ⟨a, hfa, hngt⟩)
      · simp only [hfa]
        rfl
      · rw [hfa]
        simp [hngt]
  · intro dbm restricted uid ltid2 rsn hnlt2
    cases hr : restricted.find? (fun r =>
        decide (dateLe sd r.date) && decide (dateLe r.date ed)) with
    | none =>
      simp only [V2.request_leave, if_neg hnlt2, hr]
      refine ⟨_, _, rfl, ⟨_, rfl, rfl, rfl, rfl, rfl, rfl, rfl⟩, rfl, fun a2 => rfl, ?_, ?_⟩
      · rintro ⟨r, hm, h1, h2⟩
        have hno := List.find?_eq_none.mp hr r hm
        simp only [Bool.and_eq_true, decide_eq_true_eq, not_and] at hno
        exact absurd h2 (hno h1)
      · intro _
        rfl
    | some r0 =>
      simp only [V2.request_leave, if_neg hnlt2, hr]
      refine ⟨_, _, rfl, ⟨_, rfl, rfl, rfl, rfl, rfl, rfl, rfl⟩, rfl, fun a2 => rfl,
        fun _ => rfl, ?_⟩
      intro hall
      have hm := List.mem_of_find?_eq_some hr
      have hp := List.find?_some hr
      simp only [Bool.and_eq_true, decide_eq_true_eq] at hp
      exact absurd hp (hall r0 hm)

/-- Witness for C5: the concrete valid submission of the counterexample
state is not a validation failure, by the exactness of the end before
start condition; and the same range submitted through the main blueprint
variant against the restricted day 2024-03-13 succeeds with the reason
stored unannotated and a restricted day warning flash before the success
flash. -/
theorem request_leave_spec_witness :
    (¬ (V1.request_leave dbC5 userC5 1 ⟨2024, 3, 11⟩ ⟨2024, 3, 15⟩ "trip"
        = .error .validationError)) ∧
    (∃ db2 msgs, V2.request_leave dbC5v2 restC5 7 1 ⟨2024, 3, 11⟩ ⟨2024, 3, 15⟩ "trip"
        = .ok (db2, msgs) ∧ msgs.map (fun m => m.2) = ["warning", "success"] ∧
        ∃ rq, db2.requests = dbC5v2.requests ++ [rq] ∧ rq.reason = "trip") := by
  constructor
  · intro hc
    exact absurd ((request_leave_spec dbC5 userC5 1 ⟨2024, 3, 11⟩ ⟨2024, 3, 15⟩ "trip").1.mp hc)
      (by decide)
  · obtain ⟨db2, msgs, heq, ⟨rq, hreq, hrsn, -, -, -, -, -⟩, -, -, hwarn, -⟩ :=
      (request_leave_spec dbC5 userC5 1 ⟨2024, 3, 11⟩ ⟨2024, 3, 15⟩ "trip").2.2 dbC5v2 restC5
        7 1 "trip" (by decide)
    exact ⟨db2, msgs, heq,
      hwarn ⟨⟨1, ⟨2024, 3, 13⟩, "inventory"⟩, by decide, by decide, by decide⟩,
      rq, hreq, hrsn⟩

/-- C7: starting from a state with no shift for (user, date), calling
assign_schedule twice with different times leaves exactly one Schedule row
for that key, carrying the second call times and notes but the identity
(id), creator and creation timestamp of the first call; the new shift
notification is emitted exactly once, by the first call. -/
theorem assign_schedule_upsert (db : V2.Db) (u : Nat) (d : PDate)
    (s1 e1 s2 e2 : Nat) (n1 n2 : String) (c1 c2 t1 t2 : Nat)
    (h : db.schedules.find? (V2.schedKey u d) = none) :
    (((V2.assign_schedule ((V2.assign_schedule db u d s1 e1 n1 c1 t1).1)
        u d s2 e2 n2 c2 t2).1).schedules.filter (V2.schedKey u d)
      = [{ id := db.nextId, user_id := u, date := d, start_time := s2, end_time := e2,
           notes := n2, created_by := c1, created_at := t1 }]) ∧
    (((V2.assign_schedule ((V2.assign_schedule db u d s1 e1 n1 c1 t1).1)
        u d s2 e2 n2 c2 t2).1).notifications.countP
          (fun n => n.title == "New Shift Assigned")
      = db.notifications.countP (fun n => n.title == "New Shift Assigned") + 1) := by
  have hall : ∀ b ∈ db.schedules, V2.schedKey u d b = false := by
    intro b hb
    have := List.find?_eq_none.mp h b hb
    simpa using this
  have hkey : V2.schedKey u d
      { id := db.nextId, user_id := u, date := d, start_time := s1, end_time := e1,
        notes := n1, created_by := c1, created_at := t1 } = true := by
    simp [V2.schedKey]
  have hstep1 : (V2.assign_schedule db u d s1 e1 n1 c1 t1).1
      = { db with
          schedules := db.schedules ++
            [{ id := db.nextId, user_id := u, date := d, start_time := s1, end_time := e1,
               notes := n1, created_by := c1, created_at := t1 }]
          notifications := db.notifications ++
            [{ user_id := u, title := "New Shift Assigned",
               message := "You have been assigned a shift on " ++ fmtDMY d
                 ++ " from " ++ fmtHM s1 ++ " to " ++ fmtHM e1,
               type := "shift", is_read := false, is_popup := true,
               related_id := none, related_type := some "schedule" }]
          nextId := db.nextId + 1 } := by
    simp only [V2.assign_schedule, h]
  have hfind2 : ((V2.assign_schedule db u d s1 e1 n1 c1 t1).1).schedules.find?
      (V2.schedKey u d)
      = some { id := db.nextId, user_id := u, date := d, start_time := s1, end_time := e1,
               notes := n1, created_by := c1, created_at := t1 } := by
    rw [hstep1]
    exact find?_append_cons _ _ _ _ hall hkey
  obtain ⟨db1, hdb1⟩ : ∃ x, (V2.assign_schedule db u d s1 e1 n1 c1 t1).1 = x := ⟨_, rfl⟩
  rw [hdb1] at hfind2 hstep1 ⊢
  have hstep2 : (V2.assign_schedule db1 u d s2 e2 n2 c2 t2).1
      = { db1 with
          schedules := updateFirst (V2.schedKey u d)
            (fun s => { s with start_time := s2, end_time := e2, notes := n2 })
            db1.schedules } := by
    simp only [V2.assign_schedule, hfind2]
  rw [hstep2]
  constructor
  · show (updateFirst (V2.schedKey u d)
        (fun s => { s with start_time := s2, end_time := e2, notes := n2 })
        db1.schedules).filter (V2.schedKey u d) = _
    rw [hstep1]
    show (updateFirst (V2.schedKey u d)
        (fun s => { s with start_time := s2, end_time := e2, notes := n2 })
        (db.schedules ++
          [{ id := db.nextId, user_id := u, date := d, start_time := s1, end_time := e1,
             notes := n1, created_by := c1, created_at := t1 }])).filter
        (V2.schedKey u d) = _
    rw [updateFirst_append_cons _ _ _ _ _ hall hkey]
    rw [List.filter_append]
    rw [List.filter_eq_nil_iff.mpr (fun b hb => by simp [hall b hb]), List.nil_append]
    show List.filter (V2.schedKey u d)
        [{ id := db.nextId, user_id := u, date := d, start_time := s2, end_time := e2,
           notes := n2, created_by := c1, created_at := t1 }] = _
    rw [List.filter_cons_of_pos (by simp [V2.schedKey])]
    rfl
  · show db1.notifications.countP (fun n => n.title == "New Shift Assigned")
      = db.notifications.countP (fun n => n.title == "New Shift Assigned") + 1
    rw [hstep1]
    show (db.notifications ++
        [({ user_id := u, title := "New Shift Assigned",
            message := "You have been assigned a shift on " ++ fmtDMY d
              ++ " from " ++ fmtHM s1 ++ " to " ++ fmtHM e1,
            type := "shift", is_read := false, is_popup := true,
            related_id := none, related_type := some "schedule" } : V2.Notification)]).countP
        (fun n => n.title == "New Shift Assigned") = _
    rw [List.countP_append]
    simp

/-- Witness for C7 at the empty state dbC7. -/
theorem assign_schedule_upsert_witness :
    (((V2.assign_schedule ((V2.assign_schedule dbC7 4 ⟨2024, 1, 2⟩ 540 1020 "a" 1 0).1)
        4 ⟨2024, 1, 2⟩ 600 1080 "b" 2 5).1).schedules.filter (V2.schedKey 4 ⟨2024, 1, 2⟩)
      = [{ id := dbC7.nextId, user_id := 4, date := ⟨2024, 1, 2⟩, start_time := 600,
           end_time := 1080, notes := "b", created_by := 1, created_at := 0 }]) ∧
    (((V2.assign_schedule ((V2.assign_schedule dbC7 4 ⟨2024, 1, 2⟩ 540 1020 "a" 1 0).1)
        4 ⟨2024, 1, 2⟩ 600 1080 "b" 2 5).1).notifications.countP
          (fun n => n.title == "New Shift Assigned")
      = dbC7.notifications.countP (fun n => n.title == "New Shift Assigned") + 1) :=
  assign_schedule_upsert dbC7 4 ⟨2024, 1, 2⟩ 540 1020 600 1080 "a" "b" 1 2 0 5 rfl

lemma find?_append_right_none {α : Type} (p : α → Bool) (l1 l2 : List α)
    (h : ∀ b ∈ l2, p b = false) : (l1 ++ l2).find? p = l1.find? p := by
  induction l1 with
  | nil =>
    simp only [List.nil_append, List.find?_nil]
    exact List.find?_eq_none.mpr fun x hx => by simp [h x hx]
  | cons x xs ih =>
    cases hx : p x with
    | true =>
      rw [List.cons_append, List.find?_cons_of_pos _ hx, List.find?_cons_of_pos _ hx]
    | false =>
      rw [List.cons_append, List.find?_cons_of_neg _ (by simp [hx]),
        List.find?_cons_of_neg _ (by simp [hx])]
      exact ih

lemma bulkUsersLoop_spec (st et creator now : Nat) (d : PDate) (db0 : V2.Db) :
    ∀ (users : List Nat) (db : V2.Db) (extra : List V2.Schedule) (count : Nat),
      db.schedules = db0.schedules ++ extra →
      (∀ s ∈ extra, rd s.date < rd d ∨ (s.date = d ∧ s.user_id ∉ users)) →
      users.Nodup →
      ∃ extra2,
        (V2.bulkUsersLoop st et creator now d users db count).1.schedules
          = db.schedules ++ extra2 ∧
        (∀ s ∈ extra2, s.date = d) ∧
        (V2.bulkUsersLoop st et creator now d users db count).2
          = count + users.countP (fun u => (db0.schedules.find? (V2.schedKey u d)).isNone) ∧
        extra2.length
          = users.countP (fun u => (db0.schedules.find? (V2.schedKey u d)).isNone) := by
  intro users
  induction users with
  | nil =>
    intro db extra count hsched hextra hnd
    exact ⟨[], by simp [V2.bulkUsersLoop], by simp, by simp [V2.bulkUsersLoop], by simp⟩
  | cons u rest ih =>
    intro db extra count hsched hextra hnd
    obtain ⟨hu_rest, hndr⟩ := List.nodup_cons.mp hnd
    have hfe : db.schedules.find? (V2.schedKey u d)
        = db0.schedules.find? (V2.schedKey u d) := by
      rw [hsched]
      apply find?_append_right_none
      intro b hb
      rcases hextra b hb with hlt | ⟨hdate, hu⟩
      · have hne : b.date ≠ d := fun hc => by rw [hc] at hlt; omega
        simp [V2.schedKey, hne]
      · have hne : b.user_id ≠ u := fun hc => hu (by rw [hc]; exact List.mem_cons_self _ _)
        simp [V2.schedKey, hne]
    cases hf0 : db0.schedules.find? (V2.schedKey u d) with
    | some s0 =>
      simp only [V2.bulkUsersLoop, hfe, hf0]
      obtain ⟨e2, h1, h2, h3, h4⟩ := ih db extra count hsched
        (fun s hs => by
          rcases hextra s hs with hlt | ⟨hd2, hu⟩
          · exact Or.inl hlt
          · exact Or.inr ⟨hd2, fun hc => hu (List.mem_cons_of_mem _ hc)⟩) hndr
      refine ⟨e2, h1, h2, ?_, ?_⟩
      · rw [h3, List.countP_cons]
        simp [hf0]
      · rw [h4, List.countP_cons]
        simp [hf0]
    | none =>
      simp only [V2.bulkUsersLoop, hfe, hf0]
      have hsched2 : ({ db with
          schedules := db.schedules ++
            [{ id := db.nextId, user_id := u, date := d, start_time := st, end_time := et,
               notes := "", created_by := creator, created_at := now }]
          notifications := db.notifications ++
            [{ user_id := u, title := "New Shift Assigned",
               message := "You have been assigned a shift on " ++ fmtDMY d,
               type := "shift", is_read := false, is_popup := true,
               related_id := none, related_type := none }]
          nextId := db.nextId + 1 } : V2.Db).schedules
          = db0.schedules ++ (extra ++
            [{ id := db.nextId, user_id := u, date := d, start_time := st, end_time := et,
               notes := "", created_by := creator, created_at := now }]) := by
        show db.schedules ++ _ = _
        rw [hsched, List.append_assoc]
      obtain ⟨e2, h1, h2, h3, h4⟩ := ih _ _ (count + 1) hsched2
        (fun s hs => by
          rcases List.mem_append.mp hs with hs1 | hs2
          · rcases hextra s hs1 with hlt | ⟨hd2, hu⟩
            · exact Or.inl hlt
            · exact Or.inr ⟨hd2, fun hc => hu (List.mem_cons_of_mem _ hc)⟩
          · rcases List.mem_singleton.mp hs2 with rfl
            exact Or.inr ⟨rfl, hu_rest⟩) hndr
      refine ⟨{ id := db.nextId, user_id := u, date := d, start_time := st, end_time := et,
                notes := "", created_by := creator, created_at := now } :: e2, ?_, ?_, ?_, ?_⟩
      · rw [h1]
        show (db.schedules ++ _) ++ e2 = _
        rw [List.append_assoc]
        rfl
      · intro s hs
        rcases List.mem_cons.mp hs with rfl | hs2
        · rfl
        · exact h2 s hs2
      · rw [h3, List.countP_cons]
        simp only [hf0, Option.isNone_none, if_true]
        omega
      · rw [List.length_cons, h4, List.countP_cons]
        simp only [hf0, Option.isNone_none, if_true]

lemma specNewCount_nil (db0 : V2.Db) (selected users : List Nat) :
    specNewCount db0 [] selected users = 0 := rfl

lemma specNewCount_cons (db0 : V2.Db) (d : PDate) (ds : List PDate)
    (selected users : List Nat) :
    specNewCount db0 (d :: ds) selected users
      = (if selected.contains (weekday d) then
          users.countP (fun u => (db0.schedules.find? (V2.schedKey u d)).isNone)
         else 0) + specNewCount db0 ds selected users := by
  unfold specNewCount
  cases hc : selected.contains (weekday d) with
  | true =>
    rw [List.filter_cons_of_pos (by simpa using hc), List.map_cons, List.sum_cons, if_pos rfl]
  | false =>
    rw [List.filter_cons_of_neg (by simpa using hc)]
    simp

lemma bulkDayLoop_spec (endD : PDate) (selected users : List Nat)
    (st et creator now : Nat) :
    ∀ (fuel : Nat) (current : PDate) (db0 db : V2.Db) (extra : List V2.Schedule)
      (count : Nat),
      current.Valid →
      fuel = rd endD + 1 - rd current →
      db.schedules = db0.schedules ++ extra →
      (∀ s ∈ extra, rd s.date < rd current) →
      users.Nodup →
      ∃ extra2,
        (V2.bulkDayLoop endD selected users st et creator now fuel current db
            count).1.schedules
          = db.schedules ++ extra2 ∧
        (V2.bulkDayLoop endD selected users st et creator now fuel current db count).2
          = count + specNewCount db0 (listDates current fuel) selected users ∧
        extra2.length = specNewCount db0 (listDates current fuel) selected users := by
  intro fuel
  induction fuel with
  | zero =>
    intro current db0 db extra count _ _ _ _ _
    exact ⟨[], by simp [V2.bulkDayLoop], by simp [V2.bulkDayLoop, listDates, specNewCount],
      by simp [listDates, specNewCount]⟩
  | succ n ih =>
    intro current db0 db extra count hval hf hsched hextra hnd
    have hle : rd current ≤ rd endD := by omega
    simp only [V2.bulkDayLoop]
    rw [if_pos (show dateLe current endD from hle), listDates, specNewCount_cons]
    by_cases hc : selected.contains (weekday current) = true
    · rw [if_pos hc, if_pos hc]
      obtain ⟨eU, hU1, hU2, hU3, hU4⟩ := bulkUsersLoop_spec st et creator now current db0
        users db extra count hsched (fun s hs => Or.inl (hextra s hs)) hnd
      obtain ⟨eD, hD1, hD2, hD3⟩ := ih (nextDay current) db0
        (V2.bulkUsersLoop st et creator now current users db count).1 (extra ++ eU)
        (V2.bulkUsersLoop st et creator now current users db count).2
        (valid_nextDay _ hval) (by rw [rd_nextDay _ hval]; omega)
        (by rw [hU1, hsched, List.append_assoc])
        (by
          intro s hs
          rw [rd_nextDay _ hval]
          rcases List.mem_append.mp hs with hs1 | hs2
          · have := hextra s hs1
            omega
          · rw [hU2 s hs2]
            omega) hnd
      refine ⟨eU ++ eD, ?_, ?_, ?_⟩
      · rw [hD1, hU1, List.append_assoc]
      · rw [hD2, hU3]
        omega
      · rw [List.length_append, hU4, hD3]
    · rw [if_neg hc, if_neg hc]
      obtain ⟨eD, h1, h2, h3⟩ := ih (nextDay current) db0 db extra count
        (valid_nextDay _ hval) (by rw [rd_nextDay _ hval]; omega) hsched
        (by
          intro s hs
          rw [rd_nextDay _ hval]
          have := hextra s hs
          omega) hnd
      refine ⟨eD, h1, ?_, ?_⟩
      · rw [h2]
        omega
      · rw [h3]
        omega

/-- C8: bulk schedule assignment leaves every pre existing Schedule row in
place unchanged (the result schedules are the old list plus appended new
rows, all on the iterated days), and the reported number of created rows
equals exactly the number of (user, matching weekday day) pairs of the
range that had no prior row, the users being pairwise distinct. -/
theorem bulk_assign_schedule_spec (db : V2.Db) (user_ids : List Nat) (sd ed : PDate)
    (st et : Nat) (days_of_week : List Nat) (creator now : Nat)
    (hsd : sd.Valid) (hnd : user_ids.Nodup) :
    ∃ extra2,
      (V2.bulk_assign_schedule db user_ids sd ed st et days_of_week creator
          now).1.schedules
        = db.schedules ++ extra2 ∧
      (V2.bulk_assign_schedule db user_ids sd ed st et days_of_week creator now).2
        = specNewCount db (listDates sd (rd ed + 1 - rd sd)) days_of_week user_ids ∧
      extra2.length
        = specNewCount db (listDates sd (rd ed + 1 - rd sd)) days_of_week user_ids := by
  obtain ⟨e2, h1, h2, h3⟩ := bulkDayLoop_spec ed days_of_week user_ids st et creator now
    (rd ed + 1 - rd sd) sd db db [] 0 hsd rfl (by simp) (by simp) hnd
  refine ⟨e2, h1, ?_, h3⟩
  show (V2.bulkDayLoop ed days_of_week user_ids st et creator now
      (rd ed + 1 - rd sd) sd db 0).2 = _
  rw [h2]
  omega

/-- Witness for C8 at dbC8: users 4 and 5 over Mon 2024-01-01 to Wed
2024-01-03 with Monday and Wednesday selected create exactly 3 rows, the
pair (4, 2024-01-01) being skipped for its pre existing row. -/
theorem bulk_assign_schedule_spec_witness :
    (V2.bulk_assign_schedule dbC8 [4, 5] ⟨2024, 1, 1⟩ ⟨2024, 1, 3⟩ 540 1020 [0, 2]
        1 0).2 = 3 := by
  obtain ⟨e2, -, hc, -⟩ := bulk_assign_schedule_spec dbC8 [4, 5] ⟨2024, 1, 1⟩ ⟨2024, 1, 3⟩
    540 1020 [0, 2] 1 0 (by decide) (by decide)
  rw [hc]
  decide

lemma chunk7_cons_of_le {α : Type} (l : List α) (h : 7 ≤ l.length) :
    chunk7 l = l.take 7 :: chunk7 (l.drop 7) := by
  rw [chunk7]
  rw [dif_pos h]

lemma chunk7_nil_of_lt {α : Type} (l : List α) (h : l.length < 7) :
    chunk7 l = [] := by
  rw [chunk7]
  rw [dif_neg (by omega)]

lemma rem7_of_le {α : Type} (l : List α) (h : 7 ≤ l.length) :
    rem7 l = rem7 (l.drop 7) := by
  rw [rem7]
  rw [dif_pos h]

lemma rem7_of_lt {α : Type} (l : List α) (h : l.length < 7) :
    rem7 l = l := by
  rw [rem7]
  rw [dif_neg (by omega)]

lemma chunk7_forall_length {α : Type} :
    ∀ (n : Nat) (l : List α), l.length ≤ n → ∀ w ∈ chunk7 l, w.length = 7 := by
  intro n
  induction n with
  | zero =>
    intro l hl w hw
    rw [chunk7_nil_of_lt l (by omega)] at hw
    cases hw
  | succ k ih =>
    intro l hl w hw
    by_cases h7 : 7 ≤ l.length
    · rw [chunk7_cons_of_le l h7] at hw
      rcases List.mem_cons.mp hw with rfl | hw2
      · rw [List.length_take]
        omega
      · exact ih (l.drop 7) (by simp; omega) w hw2
    · rw [chunk7_nil_of_lt l (by omega)] at hw
      cases hw

lemma rem7_length_lt {α : Type} :
    ∀ (n : Nat) (l : List α), l.length ≤ n → (rem7 l).length < 7 := by
  intro n
  induction n with
  | zero =>
    intro l hl
    rw [rem7_of_lt l (by omega)]
    omega
  | succ k ih =>
    intro l hl
    by_cases h7 : 7 ≤ l.length
    · rw [rem7_of_le l h7]
      exact ih (l.drop 7) (by simp; omega)
    · rw [rem7_of_lt l (by omega)]
      omega

lemma chunk7_count {α : Type} :
    ∀ (n : Nat) (l : List α), l.length ≤ n → (chunk7 l).length = l.length / 7 := by
  intro n
  induction n with
  | zero =>
    intro l hl
    rw [chunk7_nil_of_lt l (by omega)]
    simp
    omega
  | succ k ih =>
    intro l hl
    by_cases h7 : 7 ≤ l.length
    · rw [chunk7_cons_of_le l h7, List.length_cons, ih (l.drop 7) (by simp; omega)]
      rw [List.length_drop]
      obtain ⟨x, hx⟩ : ∃ x, l.length = x + 7 := ⟨l.length - 7, by omega⟩
      rw [hx, Nat.add_sub_cancel, Nat.add_div_right _ (by norm_num)]
    · rw [chunk7_nil_of_lt l (by omega)]
      simp
      omega

lemma rem7_eq_drop {α : Type} :
    ∀ (n : Nat) (l : List α), l.length ≤ n → rem7 l = l.drop (l.length / 7 * 7) := by
  intro n
  induction n with
  | zero =>
    intro l hl
    rw [rem7_of_lt l (by omega)]
    have : l.length = 0 := by omega
    rw [this]
    rfl
  | succ k ih =>
    intro l hl
    by_cases h7 : 7 ≤ l.length
    · rw [rem7_of_le l h7, ih (l.drop 7) (by simp; omega)]
      rw [List.drop_drop, List.length_drop]
      obtain ⟨x, hx⟩ : ∃ x, l.length = x + 7 := ⟨l.length - 7, by omega⟩
      rw [hx, Nat.add_sub_cancel, Nat.add_div_right _ (by norm_num)]
      congr 1
      ring
    · rw [rem7_of_lt l (by omega)]
      have : l.length / 7 = 0 := by omega
      rw [this]
      rfl

lemma chunk7_join_rem {α : Type} :
    ∀ (n : Nat) (l : List α), l.length ≤ n → (chunk7 l).flatten ++ rem7 l = l := by
  intro n
  induction n with
  | zero =>
    intro l hl
    rw [chunk7_nil_of_lt l (by omega), rem7_of_lt l (by omega)]
    simp
  | succ k ih =>
    intro l hl
    by_cases h7 : 7 ≤ l.length
    · rw [chunk7_cons_of_le l h7, rem7_of_le l h7, List.flatten_cons, List.append_assoc,
        ih (l.drop 7) (by simp; omega), List.take_append_drop]
    · rw [chunk7_nil_of_lt l (by omega), rem7_of_lt l (by omega)]
      simp

lemma dayLoop_eq {α : Type} :
    ∀ (cells : List α) (weeks : List (List α)) (cur : List α), cur.length < 7 →
      V2.dayLoop cells weeks cur = (weeks ++ chunk7 (cur ++ cells), rem7 (cur ++ cells)) := by
  intro cells
  induction cells with
  | nil =>
    intro weeks cur hcur
    rw [List.append_nil, chunk7_nil_of_lt cur hcur, rem7_of_lt cur hcur, List.append_nil]
    rfl
  | cons c rest ih =>
    intro weeks cur hcur
    show (if (cur ++ [c]).length = 7 then V2.dayLoop rest (weeks ++ [cur ++ [c]]) []
      else V2.dayLoop rest weeks (cur ++ [c])) = _
    by_cases h7 : (cur ++ [c]).length = 7
    · rw [if_pos h7, ih (weeks ++ [cur ++ [c]]) [] (by norm_num)]
      rw [List.nil_append, List.append_cons cur c rest]
      have hlen : 7 ≤ ((cur ++ [c]) ++ rest).length := by
        rw [List.length_append, h7]
        omega
      rw [chunk7_cons_of_le _ hlen, rem7_of_le _ hlen]
      rw [show ((cur ++ [c]) ++ rest).take 7 = cur ++ [c] from by
        rw [← h7]
        exact List.take_left _ _]
      rw [show ((cur ++ [c]) ++ rest).drop 7 = rest from by
        rw [← h7]
        exact List.drop_left _ _]
      rw [List.append_assoc, List.singleton_append]
    · rw [if_neg h7, ih weeks (cur ++ [c]) (by rw [List.length_append] at h7 ⊢; simp at h7 ⊢; omega)]
      rw [List.append_cons cur c rest]

lemma calDays_mem (y m : Nat) (today : PDate) (sc : List V2.Schedule)
    (lv : List V2.LeaveRequest) (un : List V2.Unavailability)
    (re : List V2.RestrictedDay) (hy : 1 ≤ y) (hm1 : 1 ≤ m) (hm2 : m ≤ 12) :
    ∀ (k d : Nat), 1 ≤ d → d ≤ monthLength y m →
      ∀ c ∈ V2.calDays y m today sc lv un re k ⟨y, m, d⟩,
        c.date.year = y ∧ c.date.month = m ∧ d ≤ c.date.day ∧
        c.date.day ≤ monthLength y m ∧ c.day = c.date.day := by
  intro k
  induction k with
  | zero =>
    intro d h1 h2 c hc
    cases hc
  | succ n ih =>
    intro d h1 h2 c hc
    by_cases hg : dateLe ⟨y, m, d⟩ ⟨y, m, monthLength y m⟩
    · simp only [V2.calDays, if_pos hg] at hc
      rcases List.mem_cons.mp hc with rfl | hc2
      · exact ⟨rfl, rfl, le_refl d, h2, rfl⟩
      · by_cases hd : d < monthLength y m
        · have hnext : nextDay ⟨y, m, d⟩ = ⟨y, m, d + 1⟩ := by
            simp [nextDay, hd]
          rw [hnext] at hc2
          obtain ⟨ha, hb, hcd, hdd, he⟩ := ih (d + 1) (by omega) (by omega) c hc2
          exact ⟨ha, hb, by omega, hdd, he⟩
        · have hval : (⟨y, m, d⟩ : PDate).Valid := ⟨hy, hm1, hm2, h1, h2⟩
          have hrd : rd (nextDay ⟨y, m, d⟩) = rd ⟨y, m, d⟩ + 1 := rd_nextDay _ hval
          have hdl : d = monthLength y m := by omega
          have hgt : ¬ dateLe (nextDay ⟨y, m, d⟩) ⟨y, m, monthLength y m⟩ := by
            show ¬ rd _ ≤ rd _
            rw [hrd, ← hdl]
            omega
          have hnil : V2.calDays y m today sc lv un re n (nextDay ⟨y, m, d⟩) = [] := by
            cases n with
            | zero => rfl
            | succ j => simp only [V2.calDays, if_neg hgt]
          rw [hnil] at hc2
          cases hc2
    · simp only [V2.calDays, if_neg hg] at hc
      cases hc

lemma calDays_length (y m : Nat) (today : PDate) (sc : List V2.Schedule)
    (lv : List V2.LeaveRequest) (un : List V2.Unavailability)
    (re : List V2.RestrictedDay) :
    ∀ (k d : Nat), 1 ≤ d → d ≤ monthLength y m →
      k = rd ⟨y, m, monthLength y m⟩ + 1 - rd ⟨y, m, d⟩ →
      (V2.calDays y m today sc lv un re k ⟨y, m, d⟩).length = k := by
  intro k
  induction k with
  | zero =>
    intro d h1 h2 hk
    rfl
  | succ n ih =>
    intro d h1 h2 hk
    have hrdd : rd ⟨y, m, d⟩
        = 365 * (y - 1) + leapsBefore (y - 1) + daysBeforeMonth y m + d := rfl
    have hrdl : rd ⟨y, m, monthLength y m⟩
        = 365 * (y - 1) + leapsBefore (y - 1) + daysBeforeMonth y m
          + monthLength y m := rfl
    have hle : dateLe ⟨y, m, d⟩ ⟨y, m, monthLength y m⟩ := by
      show rd _ ≤ rd _
      rw [hrdd, hrdl]
      omega
    simp only [V2.calDays, if_pos hle, List.length_cons]
    by_cases hd : d < monthLength y m
    · have hnext : nextDay ⟨y, m, d⟩ = ⟨y, m, d + 1⟩ := by
        simp [nextDay, hd]
      have hrdd1 : rd ⟨y, m, d + 1⟩
          = 365 * (y - 1) + leapsBefore (y - 1) + daysBeforeMonth y m + (d + 1) := rfl
      rw [hnext, ih (d + 1) (by omega) (by omega) (by rw [hrdd1]; rw [hrdd, hrdl] at hk; omega)]
    · have hn0 : n = 0 := by
        rw [hrdd, hrdl] at hk
        omega
      subst hn0
      rfl

lemma build_calendar_month_eq (y m : Nat) (today : PDate) (sc : List V2.Schedule)
    (lv : List V2.LeaveRequest) (un : List V2.Unavailability)
    (re : List V2.RestrictedDay) :
    V2.build_calendar_month y m today sc lv un re
      = (if (rem7 (List.replicate (weekday ⟨y, m, 1⟩) (none : Option V2.DayData)
            ++ (V2.calDays y m today sc lv un re
                (rd ⟨y, m, monthLength y m⟩ + 1 - rd ⟨y, m, 1⟩) ⟨y, m, 1⟩).map
                some)).isEmpty then
          chunk7 (List.replicate (weekday ⟨y, m, 1⟩) (none : Option V2.DayData)
            ++ (V2.calDays y m today sc lv un re
                (rd ⟨y, m, monthLength y m⟩ + 1 - rd ⟨y, m, 1⟩) ⟨y, m, 1⟩).map some)
        else
          chunk7 (List.replicate (weekday ⟨y, m, 1⟩) (none : Option V2.DayData)
            ++ (V2.calDays y m today sc lv un re
                (rd ⟨y, m, monthLength y m⟩ + 1 - rd ⟨y, m, 1⟩) ⟨y, m, 1⟩).map some)
          ++ [rem7 (List.replicate (weekday ⟨y, m, 1⟩) (none : Option V2.DayData)
              ++ (V2.calDays y m today sc lv un re
                  (rd ⟨y, m, monthLength y m⟩ + 1 - rd ⟨y, m, 1⟩) ⟨y, m, 1⟩).map some)
            ++ List.replicate (7 - (rem7 (List.replicate (weekday ⟨y, m, 1⟩)
                (none : Option V2.DayData)
              ++ (V2.calDays y m today sc lv un re
                  (rd ⟨y, m, monthLength y m⟩ + 1 - rd ⟨y, m, 1⟩) ⟨y, m, 1⟩).map
                  some)).length) none]) := by
  unfold V2.build_calendar_month
  dsimp only
  rw [dayLoop_eq _ _ _ (by rw [List.length_replicate]; exact weekday_lt_7 _)]
  rw [List.nil_append]

lemma chunkpad_rows_7 {α : Type} (L : List α) (pad : α) :
    ∀ wk ∈ (if (rem7 L).isEmpty then chunk7 L
            else chunk7 L ++ [rem7 L ++ List.replicate (7 - (rem7 L).length) pad]),
      wk.length = 7 := by
  intro wk hwk
  by_cases he : (rem7 L).isEmpty = true
  · rw [if_pos he] at hwk
    exact chunk7_forall_length L.length L (le_refl _) wk hwk
  · rw [if_neg he] at hwk
    rcases List.mem_append.mp hwk with h1 | h2
    · exact chunk7_forall_length L.length L (le_refl _) wk h1
    · rcases List.mem_singleton.mp h2 with rfl
      have := rem7_length_lt L.length L (le_refl _)
      rw [List.length_append, List.length_replicate]
      omega

lemma chunkpad_mem {α : Type} (L : List α) (pad : α) :
    ∀ wk ∈ (if (rem7 L).isEmpty then chunk7 L
            else chunk7 L ++ [rem7 L ++ List.replicate (7 - (rem7 L).length) pad]),
      ∀ c ∈ wk, c ∈ L ∨ c = pad := by
  have hjoin := chunk7_join_rem L.length L (le_refl _)
  have hchunk : ∀ wk ∈ chunk7 L, ∀ c ∈ wk, c ∈ L := by
    intro wk hwk c hc
    rw [← hjoin]
    exact List.mem_append.mpr (Or.inl (List.mem_flatten.mpr ⟨wk, hwk, hc⟩))
  have hrem : ∀ c ∈ rem7 L, c ∈ L := by
    intro c hc
    rw [← hjoin]
    exact List.mem_append.mpr (Or.inr hc)
  intro wk hwk c hc
  by_cases he : (rem7 L).isEmpty = true
  · rw [if_pos he] at hwk
    exact Or.inl (hchunk wk hwk c hc)
  · rw [if_neg he] at hwk
    rcases List.mem_append.mp hwk with h1 | h2
    · exact Or.inl (hchunk wk h1 c hc)
    · rcases List.mem_singleton.mp h2 with rfl
      rcases List.mem_append.mp hc with h3 | h4
      · exact Or.inl (hrem c h3)
      · exact Or.inr (List.eq_of_mem_replicate h4)

lemma chunkpad_head_take {α : Type} (L A : List α) (pad : α) (hA : A.length < 7)
    (hpre : L.take A.length = A) (hlen : A.length ≤ L.length) :
    ((if (rem7 L).isEmpty then chunk7 L
      else chunk7 L ++ [rem7 L ++ List.replicate (7 - (rem7 L).length) pad]).headD
        []).take A.length = A := by
  by_cases h7 : 7 ≤ L.length
  · have hc := chunk7_cons_of_le L h7
    have hmin : min A.length 7 = A.length := by omega
    by_cases he : (rem7 L).isEmpty = true
    · rw [if_pos he, hc]
      show (L.take 7).take A.length = A
      rw [List.take_take, hmin, hpre]
    · rw [if_neg he, hc]
      show (L.take 7).take A.length = A
      rw [List.take_take, hmin, hpre]
  · have hc := chunk7_nil_of_lt L (by omega)
    have hr := rem7_of_lt L (by omega)
    by_cases he : (rem7 L).isEmpty = true
    · rw [if_pos he, hc]
      have hL0 : L = [] := by
        rw [hr] at he
        simpa using he
      have hA0 : A = [] := by
        rw [hL0] at hlen
        simp at hlen
        exact hlen
      rw [hA0]
      rfl
    · rw [if_neg he, hc, hr, List.nil_append]
      show (L ++ List.replicate (7 - L.length) pad).take A.length = A
      rw [List.take_append_eq_append_take]
      have h0 : A.length - L.length = 0 := by omega
      rw [h0, List.take_zero, List.append_nil, hpre]

lemma sum_lengths_const7 {α : Type} :
    ∀ (w : List (List α)), (∀ x ∈ w, x.length = 7) →
      (w.map List.length).sum = 7 * w.length := by
  intro w
  induction w with
  | nil => intro _; rfl
  | cons x xs ih =>
    intro h
    rw [List.map_cons, List.sum_cons, ih (fun b hb => h b (List.mem_cons_of_mem _ hb)),
      h x (List.mem_cons_self _ _), List.length_cons]
    ring

/-- C6: build_calendar_month produces rows of exactly 7 cells aligned
Monday first: the first row starts with exactly weekday(first day) null
placeholders, every non null cell belongs to the displayed month (its date
carries that year and month and a day between 1 and the month length), and
for February 2024 with arbitrary inputs the grid has 5 rows of 7 cells (35
cells, a multiple of 7), 3 leading placeholders then populated cells in the
first row, and 4 populated cells then 3 trailing placeholders in the last
row. -/
theorem build_calendar_month_spec (year month : Nat) (today : PDate)
    (sc : List V2.Schedule) (lv : List V2.LeaveRequest) (un : List V2.Unavailability)
    (re : List V2.RestrictedDay) (hy : 1 ≤ year) (hm1 : 1 ≤ month) (hm2 : month ≤ 12) :
    (∀ wk ∈ V2.build_calendar_month year month today sc lv un re, wk.length = 7) ∧
    (∀ wk ∈ V2.build_calendar_month year month today sc lv un re, ∀ c ∈ wk,
      ∀ dd, c = some dd →
        dd.date.year = year ∧ dd.date.month = month ∧ 1 ≤ dd.date.day ∧
        dd.date.day ≤ monthLength year month ∧ dd.day = dd.date.day) ∧
    (((V2.build_calendar_month year month today sc lv un re).headD []).take
        (weekday ⟨year, month, 1⟩)
      = List.replicate (weekday ⟨year, month, 1⟩) none) ∧
    ((V2.build_calendar_month 2024 2 today sc lv un re).length = 5 ∧
     ((V2.build_calendar_month 2024 2 today sc lv un re).map List.length).sum = 35 ∧
     ((V2.build_calendar_month 2024 2 today sc lv un re).headD []).take 3
        = List.replicate 3 none ∧
     (∀ c ∈ ((V2.build_calendar_month 2024 2 today sc lv un re).headD []).drop 3,
        c.isSome = true) ∧
     (∀ c ∈ ((V2.build_calendar_month 2024 2 today sc lv un re).getLastD []).take 4,
        c.isSome = true) ∧
     ((V2.build_calendar_month 2024 2 today sc lv un re).getLastD []).drop 4
        = List.replicate 3 none) := by
  refine ⟨?_, ?_, ?_, ?_⟩
  · intro wk hwk
    rw [build_calendar_month_eq] at hwk
    exact chunkpad_rows_7 _ _ wk hwk
  · intro wk hwk c hc dd hdd
    rw [build_calendar_month_eq] at hwk
    rcases chunkpad_mem _ _ wk hwk c hc with hmem | hpad
    · rcases List.mem_append.mp hmem with hlead | hcells
      · have hno := List.eq_of_mem_replicate hlead
        rw [hdd] at hno
        cases hno
      · obtain ⟨d0, hd0, hcd⟩ := List.mem_map.mp hcells
        rw [hdd] at hcd
        injection hcd with hcd
        subst hcd
        obtain ⟨ha, hb, hc1, hd1, he1⟩ := calDays_mem year month today sc lv un re hy hm1
          hm2 _ 1 (le_refl 1) (monthLength_pos year month hm1 hm2) d0 hd0
        exact ⟨ha, hb, hc1, hd1, he1⟩
    · rw [hdd] at hpad
      cases hpad
  · rw [build_calendar_month_eq]
    have hres := chunkpad_head_take
      (List.replicate (weekday ⟨year, month, 1⟩) (none : Option V2.DayData)
        ++ (V2.calDays year month today sc lv un re
            (rd ⟨year, month, monthLength year month⟩ + 1 - rd ⟨year, month, 1⟩)
            ⟨year, month, 1⟩).map some)
      (List.replicate (weekday ⟨year, month, 1⟩) (none : Option V2.DayData)) none
      (by rw [List.length_replicate]; exact weekday_lt_7 _)
      (List.take_left _ _)
      (by rw [List.length_append]; omega)
    rw [List.length_replicate] at hres
    exact hres
  · have hml : monthLength 2024 2 = 29 := by decide
    have hwd : weekday ⟨2024, 2, 1⟩ = 3 := by decide
    have hcl : (V2.calDays 2024 2 today sc lv un re 29 ⟨2024, 2, 1⟩).length = 29 :=
      calDays_length 2024 2 today sc lv un re 29 1 (le_refl 1) (by decide) (by decide)
    rw [build_calendar_month_eq, hml, hwd,
      show rd (⟨2024, 2, 29⟩ : PDate) + 1 - rd (⟨2024, 2, 1⟩ : PDate) = 29 from by decide]
    generalize hgen : V2.calDays 2024 2 today sc lv un re 29 (⟨2024, 2, 1⟩ : PDate) = CS
    rw [hgen] at hcl
    have hLlen : (List.replicate 3 (none : Option V2.DayData) ++ CS.map some).length = 32 := by
      rw [List.length_append, List.length_replicate, List.length_map, hcl]
    have hrem : rem7 (List.replicate 3 (none : Option V2.DayData) ++ CS.map some)
        = (List.replicate 3 (none : Option V2.DayData) ++ CS.map some).drop 28 := by
      have h := rem7_eq_drop (List.replicate 3 (none : Option V2.DayData)
        ++ CS.map some).length _ (le_refl _)
      rw [hLlen] at h
      norm_num at h
      exact h
    have hremlen : (rem7 (List.replicate 3 (none : Option V2.DayData)
        ++ CS.map some)).length = 4 := by
      rw [hrem, List.length_drop, hLlen]
    have hne : ¬ (rem7 (List.replicate 3 (none : Option V2.DayData)
        ++ CS.map some)).isEmpty = true := by
      intro h
      have h0 : rem7 (List.replicate 3 (none : Option V2.DayData) ++ CS.map some) = [] := by
        simpa using h
      rw [h0] at hremlen
      simp at hremlen
    have hchunklen : (chunk7 (List.replicate 3 (none : Option V2.DayData)
        ++ CS.map some)).length = 4 := by
      have h := chunk7_count (List.replicate 3 (none : Option V2.DayData)
        ++ CS.map some).length _ (le_refl _)
      rw [hLlen] at h
      norm_num at h
      exact h
    have h7le : 7 ≤ (List.replicate 3 (none : Option V2.DayData) ++ CS.map some).length := by
      rw [hLlen]
      norm_num
    have hrows := chunkpad_rows_7 (List.replicate 3 (none : Option V2.DayData)
      ++ CS.map some) (none : Option V2.DayData)
    have hWlen : (if (rem7 (List.replicate 3 (none : Option V2.DayData)
          ++ CS.map some)).isEmpty = true then
          chunk7 (List.replicate 3 (none : Option V2.DayData) ++ CS.map some)
        else
          chunk7 (List.replicate 3 (none : Option V2.DayData) ++ CS.map some)
          ++ [rem7 (List.replicate 3 (none : Option V2.DayData) ++ CS.map some)
            ++ List.replicate (7 - (rem7 (List.replicate 3 (none : Option V2.DayData)
                ++ CS.map some)).length) none]).length = 5 := by
      rw [if_neg hne, List.length_append, hchunklen]
      rfl
    refine ⟨hWlen, ?_, ?_, ?_, ?_, ?_⟩
    · rw [sum_lengths_const7 _ hrows, hWlen]
    · have hres := chunkpad_head_take
        (List.replicate 3 (none : Option V2.DayData) ++ CS.map some)
        (List.replicate 3 (none : Option V2.DayData)) none (by norm_num)
        (List.take_left _ _)
        (by rw [List.length_append]; norm_num)
      rw [List.length_replicate] at hres
      exact hres
    · rw [if_neg hne, chunk7_cons_of_le _ h7le]
      show ∀ c ∈ (((List.replicate 3 (none : Option V2.DayData)
          ++ CS.map some).take 7).drop 3), c.isSome = true
      rw [List.take_append_eq_append_take,
        List.take_of_length_le (by rw [List.length_replicate]; norm_num),
        List.length_replicate, List.drop_append_eq_append_drop,
        List.drop_replicate, List.length_replicate]
      norm_num
      intro c hc
      obtain ⟨d0, _, hcd⟩ := List.mem_map.mp (List.mem_of_mem_take hc)
      rw [← hcd]
      rfl
    · rw [if_neg hne, List.getLastD_concat, List.take_append_eq_append_take,
        List.take_of_length_le (by rw [hremlen]), hremlen]
      norm_num
      intro c hc
      rw [hrem] at hc
      rw [List.drop_append_eq_append_drop, List.drop_replicate] at hc
      norm_num at hc
      obtain ⟨d0, _, hcd⟩ := List.mem_map.mp (List.mem_of_mem_drop hc)
      rw [← hcd]
      rfl
    · rw [if_neg hne, List.getLastD_concat, List.drop_append_eq_append_drop,
        List.drop_eq_nil_of_le (by rw [hremlen]), hremlen, List.nil_append]
      rfl

theorem build_calendar_month_spec_witness :
    (∀ wk ∈ V2.build_calendar_month 2024 2 ⟨2024, 2, 5⟩ [] [] [] [], wk.length = 7) ∧
    (V2.build_calendar_month 2024 2 ⟨2024, 2, 5⟩ [] [] [] []).length = 5 ∧
    ((V2.build_calendar_month 2024 2 ⟨2024, 2, 5⟩ [] [] [] []).map List.length).sum = 35 := by
  have h := build_calendar_month_spec 2024 2 ⟨2024, 2, 5⟩ [] [] [] []
    (by decide) (by decide) (by decide)
  exact ⟨h.1, h.2.2.2.1, h.2.2.2.2.1⟩
